import Mathlib

/-!
The hyper-proxy: authenticated CONNECT tunnel, quota gate and fault boundary.

A shallow embedding of `src/main.go`.

* Go strings are byte sequences: `GoString := List Nat`, every element a byte value.
* Go `int` is the 64-bit signed integer; `CallCount++` is modelled with explicit wrap-around.
* The account store is passed explicitly as a state; every handler returns the store, the
  response writer, the list of collaborator calls it made and the panic value, if any.
* Library code that is not part of the repository (the JWT library, Unicode case tables) is
  taken as a parameter record `Lib`; the standard base64 codec and `strings.Split` are
  modelled concretely.
-/

namespace HyperProxy

/-! ## Go strings -/

/-- A Go string: a sequence of bytes. -/
abbrev GoString := List Nat

/-- The bytes of an ASCII literal. -/
def str (s : String) : GoString := s.toList.map Char.toNat

/-- Every element is a byte value. -/
def IsBytes (s : GoString) : Prop := ∀ b ∈ s, b < 256

/-- The byte of the space character. -/
def space : Nat := 32

/-- The byte of the colon. -/
def colon : Nat := 58

/-- The byte of the full stop. -/
def dot : Nat := 46

/-- The padding character of base64. -/
def padChar : Nat := 61

/-- The function `strings.Split(s, sep)` for a one-byte separator: the substrings between the
occurrences of `sep`; one more piece than there are separators. -/
def split (sep : Nat) : GoString → List GoString
  | [] => [[]]
  | c :: cs =>
    if c = sep then [] :: split sep cs
    else
      match split sep cs with
      | [] => [[c]]
      | p :: ps => (c :: p) :: ps

/-- ASCII lower-casing of one byte. -/
def asciiLower (c : Nat) : Nat := if 65 ≤ c ∧ c ≤ 90 then c + 32 else c

/-- The function `strings.ToLower`: the ASCII fast path is concrete, a string with a byte outside ASCII goes through
the Unicode mapping `unicodeLower` (`strings.Map(unicode.ToLower, s)`). -/
def toLower (unicodeLower : GoString → GoString) (s : GoString) : GoString :=
  if s.all (fun c => decide (c < 128)) then s.map asciiLower else unicodeLower s

/-! ## encoding/base64, StdEncoding -/

/-- The standard alphabet: value (below 64) to character. -/
def encodeChar (v : Nat) : Nat :=
  if v < 26 then 65 + v
  else if v < 52 then 97 + (v - 26)
  else if v < 62 then 48 + (v - 52)
  else if v = 62 then 43
  else 47

/-- The decode map of the standard alphabet: `none` is the entry 0xff. -/
def decodeMap (c : Nat) : Option Nat :=
  if 65 ≤ c ∧ c ≤ 90 then some (c - 65)
  else if 97 ≤ c ∧ c ≤ 122 then some (c - 97 + 26)
  else if 48 ≤ c ∧ c ≤ 57 then some (c - 48 + 52)
  else if c = 43 then some 62
  else if c = 47 then some 63
  else none

/-- The function `base64.StdEncoding.EncodeToString`. -/
def base64Encode : GoString → GoString
  | [] => []
  | [a] => [encodeChar (a / 4), encodeChar (a % 4 * 16), padChar, padChar]
  | [a, b] => [encodeChar (a / 4), encodeChar (a % 4 * 16 + b / 16), encodeChar (b % 16 * 4), padChar]
  | a :: b :: c :: rest =>
    encodeChar (a / 4) :: encodeChar (a % 4 * 16 + b / 16) :: encodeChar (b % 16 * 4 + c / 64)
      :: encodeChar (c % 64) :: base64Encode rest

/-- A line feed or a carriage return. -/
def isNewline (c : Nat) : Bool := c = 10 || c = 13

/-- Skip over newlines (the loops `for si < len(src) && (src[si] == '\n' || src[si] == '\r')`). -/
def skipNewlines : GoString → GoString
  | [] => []
  | c :: cs => if isNewline c then skipNewlines cs else c :: cs

/-- The 24-bit value of a quantum, `dbuf[0]<<18 | dbuf[1]<<12 | dbuf[2]<<6 | dbuf[3]`. -/
def quantumVal (a b c d : Nat) : Nat := a * 262144 + b * 4096 + c * 64 + d

/-- The decoding loop of `base64.StdEncoding.DecodeString` (padded, not strict): `dbuf` holds the
values of the current quantum read so far; carriage returns and line feeds are skipped; `none`
is a `CorruptInputError`. -/
def decodeLoop : GoString → List Nat → Option GoString
  | [], dbuf => if dbuf = [] then some [] else none
  | c :: cs, dbuf =>
    match decodeMap c with
    | some v =>
      match dbuf with
      | [x, y, z] =>
        let val := quantumVal x y z v
        (decodeLoop cs []).map (fun rest => val / 65536 % 256 :: val / 256 % 256 :: val % 256 :: rest)
      | _ => decodeLoop cs (dbuf ++ [v])
    | none =>
      if isNewline c then decodeLoop cs dbuf
      else if c ≠ padChar then none
      else
        match dbuf with
        | [x, y] =>
          match skipNewlines cs with
          | [] => none
          | d :: ds =>
            if d ≠ padChar then none
            else if skipNewlines ds = [] then some [quantumVal x y 0 0 / 65536 % 256]
            else none
        | [x, y, z] =>
          if skipNewlines cs = [] then
            some [quantumVal x y z 0 / 65536 % 256, quantumVal x y z 0 / 256 % 256]
          else none
        | _ => none

/-- The function `base64.StdEncoding.DecodeString`. -/
def base64Decode (s : GoString) : Option GoString := decodeLoop s []

/-! ## Data model -/

/-- Largest value of the Go type int (64 bits). -/
def maxInt : Int := 9223372036854775807

/-- Smallest value of the Go type int (64 bits). -/
def minInt : Int := -9223372036854775808

/-- Two's complement wrap-around of integer arithmetic on int. -/
def wrapInt (x : Int) : Int := (x + 9223372036854775808) % 18446744073709551616 - 9223372036854775808

/-- A value of the Go type int. -/
def IsInt (x : Int) : Prop := minInt ≤ x ∧ x ≤ maxInt

/-- The record `Account`; the timestamps are instants in an arbitrary unit. -/
structure Account where
  id : GoString
  name : GoString
  requestLimit : Int
  callCount : Int
  createdAt : Nat
  updatedAt : Nat
  deriving DecidableEq, Repr

/-- The numeric fields are values of the type int. -/
def Account.WellTyped (a : Account) : Prop := IsInt a.requestLimit ∧ IsInt a.callCount

/-- The statement `account.CallCount++`. -/
def Account.incrCallCount (a : Account) : Account :=
  { a with callCount := wrapInt (a.callCount + 1) }

/-- What `GetAccount` returns: an error, a nil account without error, or an account. -/
inductive GetResult where
  | error (msg : GoString)
  | nil
  | found (a : Account)
  deriving DecidableEq, Repr

/-- The interface `AccountService` restricted to the two methods the proxy core calls, over
an explicit store state: `updateAccount` returns the error (none for nil) and the new state. -/
structure AccountService (σ : Type) where
  getAccount : σ → GoString → GetResult × σ
  updateAccount : σ → Account → Option GoString × σ

/-- The part of `http.Request` the handlers read: `proxyAuthorization` is the first value of
the Proxy-Authorization header when present, `attribution` is the context value stored under
`AttributionKey`. -/
structure Request where
  method : GoString
  host : GoString
  remoteAddr : GoString
  proxyAuthorization : Option GoString
  attribution : Option GoString
  deriving DecidableEq, Repr

/-- The call `r.Header.Get("Proxy-Authorization")`: the empty string when the header is absent. -/
def Request.headerGet (r : Request) : GoString := r.proxyAuthorization.getD []

/-- The call `r.WithContext(context.WithValue(r.Context(), AttributionKey, attribution))`. -/
def Request.withAttribution (r : Request) (attribution : GoString) : Request :=
  { r with attribution := some attribution }

/-- A piece of response body. -/
inductive Chunk where
  | json (message : GoString)
  | text (line : GoString)
  deriving DecidableEq, Repr

/-- The state of an `http.ResponseWriter` as the server hands it to a handler: `status` is none
until the header is written. Whether the handler took the connection over is part of what the
handler leaves behind (`Result.hijacked`). -/
structure ResponseWriter where
  header : List (String × GoString)
  status : Option Nat
  body : List Chunk
  deriving DecidableEq, Repr

/-- A fresh response writer. -/
def ResponseWriter.fresh : ResponseWriter :=
  { header := [], status := none, body := [] }

/-- The call `w.Header().Set(k, v)`; without effect on the response once the header is written. -/
def ResponseWriter.setHeader (w : ResponseWriter) (k : String) (v : GoString) : ResponseWriter :=
  if w.status.isSome then w
  else { w with header := (k, v) :: w.header.filter (fun p => p.1 ≠ k) }

/-- The call `w.WriteHeader(status)`; only the first call takes effect. -/
def ResponseWriter.writeHeader (w : ResponseWriter) (status : Nat) : ResponseWriter :=
  if w.status.isSome then w else { w with status := some status }

/-- The call `w.Write(...)`: writes the header with status 200 first when none was written. -/
def ResponseWriter.write (w : ResponseWriter) (c : Chunk) : ResponseWriter :=
  let w1 := w.writeHeader 200
  { w1 with body := w1.body ++ [c] }

/-- The function `writeJSONResponse`. -/
def writeJSONResponse (w : ResponseWriter) (status : Nat) (message : GoString) : ResponseWriter :=
  (((w.setHeader "Content-Type" (str "application/json")).setHeader "X-Proxy-Error" message).writeHeader
    status).write (Chunk.json message)

/-- The library function `http.Error`. -/
def httpError (w : ResponseWriter) (error : GoString) (code : Nat) : ResponseWriter :=
  (((w.setHeader "Content-Type" (str "text/plain; charset=utf-8")).setHeader "X-Content-Type-Options"
    (str "nosniff")).writeHeader code).write (Chunk.text error)

/-- A panic value as `recover()` returns it, by the cases `handleErrors` distinguishes: a string,
an error, any other value. An error is given by what its method `Error()` does: it returns a
message (`error`), or it panics itself with some value (`faultyError`), as the method of
`ErrAccountNotFound` does on a nil pointer (lines 358-360). The value is never nil: since
Go 1.21 a `panic(nil)` reaches `recover()` as a `*runtime.PanicNilError`, which is an error. -/
inductive PanicValue where
  | string (t : GoString)
  | error (msg : GoString)
  | faultyError (v : PanicValue)
  | other (tag : Nat)
  deriving DecidableEq, Repr

/-- A call made on a collaborator. -/
inductive Call where
  | getAccount (id : GoString)
  | updateAccount (a : Account)
  | handler (r : Request)
  | dial (host : GoString)
  | hijack
  | accessLog (attribution host remoteAddr : GoString) (bytesTransferred : Nat)
  deriving DecidableEq, Repr

/-- What running a handler leaves behind: the store, the response writer, the collaborator
calls made (oldest first), the value of a panic that is still propagating, and whether the
handler took the connection over (`Hijack()` succeeded): from then on the response writer
writes nothing. -/
structure Result (σ : Type) where
  store : σ
  w : ResponseWriter
  calls : List Call
  panic : Option PanicValue
  hijacked : Bool := false
  deriving DecidableEq, Repr

/-- An `http.Handler`, run against a store state and a response writer. -/
abbrev Handler (σ : Type) := Request → σ → ResponseWriter → Result σ

/-- The handler returns normally. -/
def done {σ : Type} (s : σ) (w : ResponseWriter) (calls : List Call) : Result σ :=
  { store := s, w := w, calls := calls, panic := none }

/-- Prefix the calls made before a handler ran. -/
def Result.after {σ : Type} (calls : List Call) (res : Result σ) : Result σ :=
  { res with calls := calls ++ res.calls }

/-! ## The JWT library (github.com/golang-jwt/jwt), as far as `jwt.Parse` uses it -/

/-- The signing methods the library registers. -/
inductive SigningMethod where
  | HS256 | HS384 | HS512
  | RS256 | RS384 | RS512
  | PS256 | PS384 | PS512
  | ES256 | ES384 | ES512
  | EdDSA
  | none
  deriving DecidableEq, Repr

/-- The type assertion `token.Method.(*jwt.SigningMethodHMAC)` succeeds. -/
def SigningMethod.isHMAC : SigningMethod → Bool
  | .HS256 | .HS384 | .HS512 => true
  | _ => false

/-- The library function `jwt.GetSigningMethod`. -/
def getSigningMethod (alg : GoString) : Option SigningMethod :=
  if alg = str "HS256" then some .HS256
  else if alg = str "HS384" then some .HS384
  else if alg = str "HS512" then some .HS512
  else if alg = str "RS256" then some .RS256
  else if alg = str "RS384" then some .RS384
  else if alg = str "RS512" then some .RS512
  else if alg = str "PS256" then some .PS256
  else if alg = str "PS384" then some .PS384
  else if alg = str "PS512" then some .PS512
  else if alg = str "ES256" then some .ES256
  else if alg = str "ES384" then some .ES384
  else if alg = str "ES512" then some .ES512
  else if alg = str "EdDSA" then some .EdDSA
  else if alg = str "none" then some .none
  else none

/-- A decoded JSON value, as far as the proxy distinguishes them. -/
inductive JsonValue where
  | null
  | bool (b : Bool)
  | number (text : GoString)
  | string (s : GoString)
  | composite (goType : GoString)
  deriving DecidableEq, Repr

/-- The type `jwt.MapClaims`. -/
abbrev MapClaims := List (GoString × JsonValue)

/-- The map access `claims[key]`: none is the nil interface of an absent key. -/
def MapClaims.get (claims : MapClaims) (key : GoString) : Option JsonValue :=
  (claims.find? (fun p => p.1 = key)).map Prod.snd

/-- The type `jwt.Token` after parsing: `alg` is `Header["alg"]`. -/
structure Token where
  alg : GoString
  method : SigningMethod
  claims : MapClaims
  valid : Bool
  deriving DecidableEq, Repr

/-- Library behaviour outside the repository, taken as a parameter.
* `unicodeLower`: `strings.Map(unicode.ToLower, s)`.
* `parseHeader seg`: `DecodeSegment` and JSON decoding of the header segment; none is a failure,
  the value is `Header["alg"]` when it is a string.
* `parseClaims seg`: `DecodeSegment` and JSON decoding of the claims segment into `MapClaims`.
* `claimsValid`: `MapClaims.Valid()` returns nil (the time claims hold now).
* `verify m signingString signature key`: `m.Verify(...)` returns nil. -/
structure Lib where
  unicodeLower : GoString → GoString
  parseHeader : GoString → Option (Option GoString)
  parseClaims : GoString → Option MapClaims
  claimsValid : MapClaims → Bool
  verify : SigningMethod → GoString → GoString → GoString → Bool

/-- The library function `jwt.Parse(tokenString, keyFunc)`, that is `ParseWithClaims` with
`MapClaims`: none is a non-nil error; a returned token has `Valid` set. -/
def jwtParse (lib : Lib) (tokenString : GoString) (keyFunc : Token → Option GoString) : Option Token :=
  match split dot tokenString with
  | [seg0, seg1, seg2] =>
    match lib.parseHeader seg0 with
    | none => none
    | some header =>
      match lib.parseClaims seg1 with
      | none => none
      | some claims =>
        match header with
        | none => none
        | some alg =>
          match getSigningMethod alg with
          | none => none
          | some method =>
            match keyFunc { alg := alg, method := method, claims := claims, valid := false } with
            | none => none
            | some key =>
              if lib.claimsValid claims && lib.verify method (seg0 ++ dot :: seg1) seg2 key then
                some { alg := alg, method := method, claims := claims, valid := true }
              else none
  | _ => none

/-! ## authMiddleware (lines 112-189) -/

/-- The key function handed to `jwt.Parse` (lines 141-147): the secret when the method of the
token is of type `*jwt.SigningMethodHMAC`, otherwise an error (none). -/
def keyFunc (secret : GoString) (token : Token) : Option GoString :=
  if token.method.isHMAC then some secret else none

/-- Lines 114-138: the checks on the Proxy-Authorization header; an error carries the status and
the message of the response, success the pair `(attribution, tokenString)`. -/
def extractCredentials (lib : Lib) (authHeader : GoString) : Except (Nat × GoString) (GoString × GoString) :=
  if authHeader = [] then .error (407, str "Proxy authorization required")
  else
    match split space authHeader with
    | [scheme, encoded] =>
      if toLower lib.unicodeLower scheme ≠ str "basic" then
        .error (400, str "Invalid proxy authorization header")
      else
        match base64Decode encoded with
        | none => .error (400, str "Invalid proxy authorization header")
        | some payload =>
          match split colon payload with
          | [attribution, tokenString] => .ok (attribution, tokenString)
          | _ => .error (400, str "Invalid proxy authorization header")
    | _ => .error (400, str "Invalid proxy authorization header")

/-- The message of the run-time error of a failed type assertion to string. -/
def assertionMessage : Option JsonValue → GoString
  | none | some .null => str "interface conversion: interface \x7b\x7d is nil, not string"
  | some (.bool _) => str "interface conversion: interface \x7b\x7d is bool, not string"
  | some (.number _) => str "interface conversion: interface \x7b\x7d is float64, not string"
  | some (.composite t) => str "interface conversion: interface \x7b\x7d is " ++ t ++ str ", not string"
  | some (.string _) => []

/-- Outcome of lines 141-156 and 184-187. -/
inductive Verified where
  | invalid
  | panics (v : PanicValue)
  | id (id : GoString)
  deriving DecidableEq, Repr

/-- Lines 141-156 and 184-187: parse and verify the token, then read the claim "id" with the
unchecked type assertion `claims["id"].(string)`. -/
def verifyToken (lib : Lib) (secret : GoString) (tokenString : GoString) : Verified :=
  match jwtParse lib tokenString (keyFunc secret) with
  | none => .invalid
  | some token =>
    if token.valid then
      match token.claims.get (str "id") with
      | some (.string id) => .id id
      | v => .panics (.error (assertionMessage v))
    else .invalid

/-- Lines 157-183: look the account up, check the limit, count the call, run the handler. -/
def quotaGate {σ : Type} (handler : Handler σ) (accountService : AccountService σ)
    (attribution id : GoString) : Handler σ := fun r s w =>
  let got := accountService.getAccount s id
  match got.1 with
  | .error msg => done got.2 (writeJSONResponse w 401 msg) [.getAccount id]
  | .nil => done got.2 (writeJSONResponse w 401 (str "Invalid API key")) [.getAccount id]
  | .found account =>
    if account.callCount ≥ account.requestLimit then
      done got.2 (writeJSONResponse w 429 (str "Rate limit exceeded")) [.getAccount id]
    else
      let account := account.incrCallCount
      let upd := accountService.updateAccount got.2 account
      match upd.1 with
      | some msg =>
        done upd.2 (writeJSONResponse w 500 msg) [.getAccount id, .updateAccount account]
      | none =>
        (handler (r.withAttribution attribution) upd.2 w).after
          [.getAccount id, .updateAccount account, .handler (r.withAttribution attribution)]

/-- The handler `authMiddleware(handler, accountService, secret)`. -/
def authMiddleware {σ : Type} (lib : Lib) (handler : Handler σ) (accountService : AccountService σ)
    (secret : GoString) : Handler σ := fun r s w =>
  match extractCredentials lib r.headerGet with
  | .error (status, message) => done s (writeJSONResponse w status message) []
  | .ok (attribution, tokenString) =>
    match verifyToken lib secret tokenString with
    | .invalid => done s (writeJSONResponse w 400 (str "Invalid JWT")) []
    | .panics v => { store := s, w := w, calls := [], panic := some v }
    | .id id => quotaGate handler accountService attribution id r s w

/-! ## handleTunneling (lines 191-235) -/

/-- The network as one request sees it: `dial host` is the error of `net.DialTimeout` (none for a
connection), `hijacker` says whether the response writer implements `http.Hijacker`,
`hijackError` is the error of `Hijack`, the last two are the byte counts of the two copies. -/
structure Net where
  dial : GoString → Option GoString
  hijacker : Bool
  hijackError : Option GoString
  clientToDest : Nat
  destToClient : Nat

/-- The handler `handleTunneling`; the two relay goroutines are represented by their byte counts. -/
def handleTunneling {σ : Type} (net : Net) : Handler σ := fun r s w =>
  match r.attribution with
  | none =>
    { store := s, w := w, calls := [], panic := some (.error (assertionMessage none)) }
  | some attribution =>
    match net.dial r.host with
    | some err => done s (httpError w err 503) [.dial r.host]
    | none =>
      let w1 := w.writeHeader 200
      if !net.hijacker then
        done s (writeJSONResponse w1 500 (str "Proxying not supported")) [.dial r.host]
      else
        match net.hijackError with
        | some _ =>
          done s (writeJSONResponse w1 500 (str "Failed to proxy connection")) [.dial r.host, .hijack]
        | none =>
          { store := s, w := w1,
            calls := [.dial r.host, .hijack,
              .accessLog attribution r.host r.remoteAddr (net.clientToDest + net.destToClient)],
            panic := none, hijacked := true }

/-! ## handleErrors (lines 382-401) and ConnectHandler (lines 237-248) -/

/-- The expression `err.Error()` of line 396 for the error built by the type switch of lines
387-394 from the recovered value: the text, or the value with which the call panics. -/
def panicText : PanicValue → Except PanicValue GoString
  | .string t => .ok t
  | .error msg => .ok msg
  | .faultyError v => .error v
  | .other _ => .ok (str "unknown error")

/-- The handler `handleErrors(h)`: the deferred function recovers a panic of `h`, turns the
value into an error and answers 500 through `http.Error`. When `err.Error()` panics, that panic
leaves the deferred function and nothing is written; on a connection that `h` took over,
`http.Error` writes nothing. -/
def handleErrors {σ : Type} (h : Handler σ) : Handler σ := fun r s w =>
  let res := h r s w
  match res.panic with
  | some v =>
    match panicText v with
    | .error v1 => { res with panic := some v1 }
    | .ok text =>
      if res.hijacked then { res with panic := none }
      else { res with w := httpError res.w text 500, panic := none }
  | none => res

/-- The method `ConnectHandler.ServeHTTP`. -/
def connectHandler {σ : Type} (lib : Lib) (net : Net) (accountService : AccountService σ)
    (secret : GoString) : Handler σ := fun r s w =>
  if r.method ≠ str "CONNECT" then done s (writeJSONResponse w 405 (str "Method not allowed")) []
  else authMiddleware lib (handleTunneling net) accountService secret r s w

/-! ## GormAccountService (lines 52-104) over a table that never fails -/

/-- The accounts table and the clock of the store; `nullKeyRows` are the rows inserted
without a primary key, which no query by id finds. The instant 0 is the zero time. -/
structure DB where
  rows : List Account
  now : Nat
  nullKeyRows : List Account := []
  deriving DecidableEq, Repr

/-- The query `Where("id = ?", id).First(&account)`. -/
def DB.first (db : DB) (id : GoString) : Option Account := db.rows.find? (fun a => a.id = id)

/-- Persist a record faithfully under its id: stamp `UpdatedAt`, replace the row that has the
id of the record, and insert the record (stamping a zero `CreatedAt`) when no row has it. -/
def DB.persist (db : DB) (a : Account) : DB :=
  let a1 := { a with updatedAt := db.now }
  if db.rows.any (fun x => x.id = a.id) then
    { db with rows := db.rows.map (fun x => if x.id = a.id then a1 else x), now := db.now + 1 }
  else
    { db with
      rows := db.rows ++ [{ a1 with createdAt := if a.createdAt = 0 then db.now else a.createdAt }],
      now := db.now + 1 }

/-- The call `Save(account)` of the ORM: a record whose primary key is blank is inserted as a
new row, the key column left out (its zero time stamps set), and no stored row changes;
otherwise the row with that key is updated, or the record inserted when there is none. -/
def DB.save (db : DB) (a : Account) : DB :=
  if a.id = [] then
    { db with
      nullKeyRows := db.nullKeyRows ++
        [{ a with createdAt := if a.createdAt = 0 then db.now else a.createdAt,
                  updatedAt := if a.updatedAt = 0 then db.now else a.updatedAt }],
      now := db.now + 1 }
  else db.persist a

/-- The message of `ErrAccountNotFound`. -/
def errAccountNotFound (apiKey : GoString) : GoString := str "Account not found for API key: " ++ apiKey

/-- The methods `GetAccount` and `UpdateAccount` of `GormAccountService`, on a database whose
operations succeed. -/
def gormAccountService : AccountService DB where
  getAccount db apiKey :=
    match db.first apiKey with
    | none => (.error (errAccountNotFound apiKey), db)
    | some account => (.found account, db)
  updateAccount db account := (none, db.save account)

/-- An account store that persists updates faithfully: `GetAccount` is the query by id,
`UpdateAccount` never fails and persists the record under its id. -/
def faithfulAccountService : AccountService DB where
  getAccount db apiKey :=
    match db.first apiKey with
    | none => (.error (errAccountNotFound apiKey), db)
    | some account => (.found account, db)
  updateAccount db account := (none, db.persist account)

/-- Serve requests one after another, each with its own view of the network, through
`authMiddleware(handleTunneling, ...)` over a store that persists updates faithfully; returns
the results in order and the final store. -/
def serveAll (lib : Lib) (secret : GoString) : DB → List (Request × Net) → List (Result DB) × DB
  | db, [] => ([], db)
  | db, (r, net) :: rest =>
    let res := authMiddleware lib (handleTunneling net) faithfulAccountService secret r db
      ResponseWriter.fresh
    let out := serveAll lib secret res.store rest
    (res :: out.1, out.2)

/-! ## A small instance of the library, for evaluating the handlers on concrete requests -/

/-- A keyed tag standing in for the HMAC of the three methods. -/
def toyMac (m : SigningMethod) (key signingString : GoString) : GoString :=
  key ++ (match m with
    | .HS256 => str "a"
    | .HS384 => str "b"
    | .HS512 => str "c"
    | _ => []) ++ signingString.filter (fun c => c ≠ dot)

/-- An instance of `Lib`: the header segment is the name of the algorithm (empty: no "alg"), the
claims segment is the value of the claim "id" ("-": no claims), a signature verifies when the
method is of the HMAC family and the signature is the tag of that method. -/
def toyLib : Lib where
  unicodeLower := id
  parseHeader seg := if seg = [] then some none else some (some seg)
  parseClaims seg := if seg = str "-" then some [] else some [(str "id", .string seg)]
  claimsValid _ := true
  verify m signingString signature key := m.isHMAC && signature = toyMac m key signingString

/-- A token of the small instance: algorithm name, account id, tag. -/
def toyToken (m : SigningMethod) (alg id key : GoString) : GoString :=
  alg ++ dot :: id ++ dot :: toyMac m key (alg ++ dot :: id)

/-- A CONNECT request that carries the given Proxy-Authorization header. -/
def connectRequest (authHeader : GoString) : Request :=
  { method := str "CONNECT", host := str "example.org:443", remoteAddr := str "10.0.0.1:5000",
    proxyAuthorization := some authHeader, attribution := none }

/-- The header `Basic base64(attribution:token)`. -/
def basicHeader (attribution token : GoString) : GoString :=
  str "Basic " ++ base64Encode (attribution ++ colon :: token)

/-- A network on which every dial succeeds and the connection can be taken over. -/
def netUp : Net :=
  { dial := fun _ => none, hijacker := true, hijackError := none, clientToDest := 3, destToClient := 5 }

/-- A network on which every dial fails. -/
def netDown : Net :=
  { dial := fun _ => some (str "dial tcp: connection refused"), hijacker := true, hijackError := none,
    clientToDest := 0, destToClient := 0 }

/-- The account "svc" with limit 2 and no call counted. -/
def svcAccount : Account :=
  { id := str "X", name := str "svc", requestLimit := 2, callCount := 0, createdAt := 0, updatedAt := 0 }

/-- A token of the small instance for the account "X", signed with the key "k" as HS256. -/
def svcToken : GoString := toyToken .HS256 (str "HS256") (str "X") (str "k")

/-- A token of the small instance for the account "X", signed with the key "k" as HS384. -/
def svcToken384 : GoString := toyToken .HS384 (str "HS384") (str "X") (str "k")

/-- A correctly signed token of the small instance whose claims are empty. -/
def noIdToken : GoString := toyToken .HS256 (str "HS256") (str "-") (str "k")

/-- The request `CONNECT example.org:443` with `Basic base64("svc:" + svcToken384)`. -/
def svcRequest384 : Request := connectRequest (basicHeader (str "svc") svcToken384)

/-- The request `CONNECT example.org:443` with `Basic base64("svc:" + noIdToken)`. -/
def noIdRequest : Request := connectRequest (basicHeader (str "svc") noIdToken)

/-- A token of the small instance for the account "X", signed with the key "k" as HS512. -/
def svcToken512 : GoString := toyToken .HS512 (str "HS512") (str "X") (str "k")

/-- The request `CONNECT example.org:443` with `Basic base64("svc:" + svcToken512)`. -/
def svcRequest512 : Request := connectRequest (basicHeader (str "svc") svcToken512)

/-- An account stored under the empty id, with limit 2 and no call counted. -/
def blankAccount : Account :=
  { id := [], name := str "blank", requestLimit := 2, callCount := 0, createdAt := 3, updatedAt := 3 }

/-- A store holding the account with the empty id only. -/
def blankStore : DB := { rows := [blankAccount], now := 7 }

/-- A token of the small instance whose claim "id" is the empty string, signed with "k". -/
def blankIdToken : GoString := toyToken .HS256 (str "HS256") [] (str "k")

/-- The request `CONNECT example.org:443` with `Basic base64("svc:" + blankIdToken)`. -/
def blankIdRequest : Request := connectRequest (basicHeader (str "svc") blankIdToken)

/-- The text of the run-time error of a nil pointer dereference. -/
def nilDereference : GoString := str "runtime error: invalid memory address or nil pointer dereference"

/-- A handler that panics, before writing anything, with an error whose method `Error()`
dereferences a nil pointer: `panic((*ErrAccountNotFound)(nil))`. -/
def faultyErrorHandler : Handler DB := fun _ s w =>
  { store := s, w := w, calls := [], panic := some (.faultyError (.error nilDereference)) }

/-- A handler that takes the connection over without writing a response and then panics with
a string. -/
def hijackThenPanic : Handler DB := fun _ s w =>
  { store := s, w := w, calls := [.hijack], panic := some (.string (str "boom")), hijacked := true }

/-- A store holding the account "svc" only. -/
def svcStore : DB := { rows := [svcAccount], now := 7 }

/-- The request `CONNECT example.org:443` with `Basic base64("svc:" + svcToken)`. -/
def svcRequest : Request := connectRequest (basicHeader (str "svc") svcToken)

/-- The header `basic base64("svc:" + svcToken)`: the scheme written in lower case. -/
def lowerCaseHeader : GoString := str "basic " ++ base64Encode (str "svc" ++ colon :: svcToken)

/-! ## Predicates used in the statements -/

/-- The record with another call count. -/
def Account.withCallCount (a : Account) (n : Int) : Account := { a with callCount := n }

/-- The credential of the request passes the header checks with the given attribution label and
its token verifies to the account id. -/
def Authenticates (lib : Lib) (secret : GoString) (r : Request) (attribution id : GoString) : Prop :=
  ∃ tokenString, extractCredentials lib r.headerGet = .ok (attribution, tokenString) ∧
    verifyToken lib secret tokenString = .id id

/-- The header form of the specification: "Basic " followed by the standard base64 encoding of a
payload with exactly one colon. -/
def SpecHeaderForm (authHeader : GoString) : Prop :=
  ∃ attribution token, colon ∉ attribution ∧ colon ∉ token ∧
    authHeader = basicHeader attribution token

/-- The header form the checks of lines 114-135 let through: two pieces around one space, the
first lower-casing to "basic", the second decoding to a payload with exactly one colon. -/
def AcceptedHeaderForm (lib : Lib) (authHeader : GoString) : Prop :=
  ∃ scheme encoded attribution token,
    authHeader = scheme ++ space :: encoded ∧ space ∉ scheme ∧ space ∉ encoded ∧
    toLower lib.unicodeLower scheme = str "basic" ∧
    base64Decode encoded = some (attribution ++ colon :: token) ∧
    colon ∉ attribution ∧ colon ∉ token

/-- The algorithm the token declares: the value of "alg" in the header segment. -/
def declaredAlg (lib : Lib) (tokenString : GoString) : Option GoString :=
  match split dot tokenString with
  | [seg0, _, _] => (lib.parseHeader seg0).join
  | _ => none

/-- The stored call count of an account. -/
def DB.callCount (db : DB) (id : GoString) : Option Int := (db.first id).map Account.callCount

/-! ## Lemmas on strings.Split -/

theorem split_ne_nil (sep : Nat) (s : GoString) : split sep s ≠ [] := by
  cases s with
  | nil => simp [split]
  | cons c cs =>
    simp only [split]
    split_ifs
    · simp
    · split <;> simp

theorem split_of_not_mem (sep : Nat) (s : GoString) (h : sep ∉ s) : split sep s = [s] := by
  induction s with
  | nil => rfl
  | cons c cs ih =>
    have hc : c ≠ sep := fun e => h (by simp [e])
    have hcs : sep ∉ cs := fun e => h (by simp [e])
    simp [split, hc, ih hcs]

theorem split_append (sep : Nat) (a b : GoString) (h : sep ∉ a) :
    split sep (a ++ sep :: b) = a :: split sep b := by
  induction a with
  | nil => simp [split]
  | cons c cs ih =>
    have hc : c ≠ sep := fun e => h (by simp [e])
    have hcs : sep ∉ cs := fun e => h (by simp [e])
    simp [split, hc, ih hcs]

theorem split_eq_cons (sep : Nat) (s a : GoString) (rest : List GoString) (hrest : rest ≠ [])
    (h : split sep s = a :: rest) :
    ∃ b, s = a ++ sep :: b ∧ sep ∉ a ∧ split sep b = rest := by
  induction s generalizing a with
  | nil => simp [split] at h; exact absurd h.2 hrest
  | cons c cs ih =>
    simp only [split] at h
    by_cases hc : c = sep
    · simp only [hc, if_true, List.cons.injEq] at h
      exact ⟨cs, by simp [← h.1, hc], by simp [← h.1], h.2⟩
    · simp only [hc, if_false] at h
      cases hsp : split sep cs with
      | nil => exact absurd hsp (split_ne_nil sep cs)
      | cons p ps =>
        rw [hsp] at h
        simp only [List.cons.injEq] at h
        obtain ⟨b, hb1, hb2, hb3⟩ := ih p (by rw [hsp, h.2])
        refine ⟨b, by simp [← h.1, hb1], ?_, hb3⟩
        rw [← h.1]
        simp only [List.mem_cons, not_or]
        exact ⟨fun e => hc e.symm, hb2⟩

theorem split_eq_singleton (sep : Nat) (s a : GoString) (h : split sep s = [a]) :
    s = a ∧ sep ∉ a := by
  induction s generalizing a with
  | nil => simp [split] at h; subst h; simp
  | cons c cs ih =>
    simp only [split] at h
    by_cases hc : c = sep
    · simp only [hc, if_true, List.cons.injEq] at h
      exact absurd h.2 (split_ne_nil sep cs)
    · simp only [hc, if_false] at h
      cases hsp : split sep cs with
      | nil => exact absurd hsp (split_ne_nil sep cs)
      | cons p ps =>
        rw [hsp] at h
        simp only [List.cons.injEq] at h
        rw [h.2] at hsp
        obtain ⟨h1, h2⟩ := ih p hsp
        refine ⟨by simp [← h.1, h1], ?_⟩
        rw [← h.1]
        simp only [List.mem_cons, not_or]
        exact ⟨fun e => hc e.symm, h2⟩

/-- Exactly two pieces: the string is the two pieces around its only separator. -/
theorem split_eq_pair_iff (sep : Nat) (s a b : GoString) :
    split sep s = [a, b] ↔ s = a ++ sep :: b ∧ sep ∉ a ∧ sep ∉ b := by
  constructor
  · intro h
    obtain ⟨b1, h1, h2, h3⟩ := split_eq_cons sep s a [b] (by simp) h
    obtain ⟨h4, h5⟩ := split_eq_singleton sep b1 b h3
    subst h4
    exact ⟨h1, h2, h5⟩
  · rintro ⟨h1, h2, h3⟩
    rw [h1, split_append sep a b h2, split_of_not_mem sep b h3]

/-! ## Lemmas on the base64 codec -/

theorem decodeMap_encodeChar : ∀ v, v < 64 → decodeMap (encodeChar v) = some v := by
  decide

theorem encodeChar_ne_space : ∀ v, v < 64 → encodeChar v ≠ space := by
  decide

theorem quantum_bytes (a b c : Nat) :
    quantumVal (a / 4) (a % 4 * 16 + b / 16) (b % 16 * 4 + c / 64) (c % 64) = a * 65536 + b * 256 + c := by
  unfold quantumVal
  omega

theorem decodeLoop_block (a b c : Nat) (rest : GoString) (ha : a < 256) (hb : b < 256) (hc : c < 256) :
    decodeLoop (encodeChar (a / 4) :: encodeChar (a % 4 * 16 + b / 16) ::
      encodeChar (b % 16 * 4 + c / 64) :: encodeChar (c % 64) :: rest) [] =
      (decodeLoop rest []).map (fun t => a :: b :: c :: t) := by
  have h1 := decodeMap_encodeChar (a / 4) (by omega)
  have h2 := decodeMap_encodeChar (a % 4 * 16 + b / 16) (by omega)
  have h3 := decodeMap_encodeChar (b % 16 * 4 + c / 64) (by omega)
  have h4 := decodeMap_encodeChar (c % 64) (by omega)
  simp only [decodeLoop, h1, h2, h3, h4, List.nil_append, List.cons_append, quantum_bytes a b c]
  have e1 : (a * 65536 + b * 256 + c) / 65536 % 256 = a := by omega
  have e2 : (a * 65536 + b * 256 + c) / 256 % 256 = b := by omega
  have e3 : (a * 65536 + b * 256 + c) % 256 = c := by omega
  rw [e1, e2, e3]

theorem decodeLoop_one (a : Nat) (ha : a < 256) :
    decodeLoop [encodeChar (a / 4), encodeChar (a % 4 * 16), padChar, padChar] [] = some [a] := by
  have h1 := decodeMap_encodeChar (a / 4) (by omega)
  have h2 := decodeMap_encodeChar (a % 4 * 16) (by omega)
  have hp : decodeMap padChar = none := by decide
  have hn : isNewline padChar = false := by decide
  have e : quantumVal (a / 4) (a % 4 * 16) 0 0 / 65536 % 256 = a := by unfold quantumVal; omega
  simp [decodeLoop, h1, h2, hp, hn, skipNewlines, e]

theorem decodeLoop_two (a b : Nat) (ha : a < 256) (hb : b < 256) :
    decodeLoop [encodeChar (a / 4), encodeChar (a % 4 * 16 + b / 16), encodeChar (b % 16 * 4), padChar] [] =
      some [a, b] := by
  have h1 := decodeMap_encodeChar (a / 4) (by omega)
  have h2 := decodeMap_encodeChar (a % 4 * 16 + b / 16) (by omega)
  have h3 := decodeMap_encodeChar (b % 16 * 4) (by omega)
  have hp : decodeMap padChar = none := by decide
  have hn : isNewline padChar = false := by decide
  have e1 : quantumVal (a / 4) (a % 4 * 16 + b / 16) (b % 16 * 4) 0 / 65536 % 256 = a := by
    unfold quantumVal; omega
  have e2 : quantumVal (a / 4) (a % 4 * 16 + b / 16) (b % 16 * 4) 0 / 256 % 256 = b := by
    unfold quantumVal; omega
  simp [decodeLoop, h1, h2, h3, hp, hn, skipNewlines, e1, e2]

/-- Decoding inverts encoding on byte strings. -/
theorem base64Decode_encode (bs : GoString) (h : IsBytes bs) : base64Decode (base64Encode bs) = some bs := by
  unfold base64Decode
  induction bs using base64Encode.induct with
  | case1 => simp [base64Encode, decodeLoop]
  | case2 a =>
    simp only [base64Encode]
    exact decodeLoop_one a (h a (by simp))
  | case3 a b =>
    simp only [base64Encode]
    exact decodeLoop_two a b (h a (by simp)) (h b (by simp))
  | case4 a b c rest ih =>
    simp only [base64Encode]
    rw [decodeLoop_block a b c _ (h a (by simp)) (h b (by simp)) (h c (by simp)),
      ih (fun x hx => h x (by simp [hx]))]
    rfl

/-- The encoding contains no space. -/
theorem space_not_mem_encode (bs : GoString) (h : IsBytes bs) : space ∉ base64Encode bs := by
  induction bs using base64Encode.induct with
  | case1 => simp [base64Encode]
  | case2 a =>
    have h1 := encodeChar_ne_space (a / 4) (by have := h a (by simp); omega)
    have h2 := encodeChar_ne_space (a % 4 * 16) (by omega)
    simp only [base64Encode, List.mem_cons, List.mem_singleton, not_or, List.not_mem_nil, or_false]
    exact ⟨h1.symm, h2.symm, by decide, by decide⟩
  | case3 a b =>
    have hb := h b (by simp)
    have h1 := encodeChar_ne_space (a / 4) (by have := h a (by simp); omega)
    have h2 := encodeChar_ne_space (a % 4 * 16 + b / 16) (by omega)
    have h3 := encodeChar_ne_space (b % 16 * 4) (by omega)
    simp only [base64Encode, List.mem_cons, List.mem_singleton, not_or, List.not_mem_nil, or_false]
    exact ⟨h1.symm, h2.symm, h3.symm, by decide⟩
  | case4 a b c rest ih =>
    have hb := h b (by simp)
    have hc := h c (by simp)
    have h1 := encodeChar_ne_space (a / 4) (by have := h a (by simp); omega)
    have h2 := encodeChar_ne_space (a % 4 * 16 + b / 16) (by omega)
    have h3 := encodeChar_ne_space (b % 16 * 4 + c / 64) (by omega)
    have h4 := encodeChar_ne_space (c % 64) (by omega)
    simp only [base64Encode, List.mem_cons, not_or]
    exact ⟨h1.symm, h2.symm, h3.symm, h4.symm, ih (fun x hx => h x (by simp [hx]))⟩

/-! ## Lemmas on the handlers -/

theorem wrapInt_succ (c l : Int) (hc : minInt ≤ c) (hlt : c < l) (hl : l ≤ maxInt) :
    wrapInt (c + 1) = c + 1 := by
  unfold wrapInt
  unfold minInt at hc
  unfold maxInt at hl
  omega

theorem incrCallCount_eq (a : Account) (hty : a.WellTyped) (hlt : a.callCount < a.requestLimit) :
    a.incrCallCount = a.withCallCount (a.callCount + 1) := by
  unfold Account.incrCallCount Account.withCallCount
  rw [wrapInt_succ a.callCount a.requestLimit hty.2.1 hlt hty.1.2]

theorem status_writeJSONResponse (w : ResponseWriter) (status : Nat) (message : GoString)
    (hw : w.status = none) : (writeJSONResponse w status message).status = some status := by
  simp [writeJSONResponse, ResponseWriter.write, ResponseWriter.writeHeader, ResponseWriter.setHeader, hw]

theorem status_httpError (w : ResponseWriter) (error : GoString) (code : Nat)
    (hw : w.status = none) : (httpError w error code).status = some code := by
  simp [httpError, ResponseWriter.write, ResponseWriter.writeHeader, ResponseWriter.setHeader, hw]

theorem authMiddleware_of_authenticates {σ : Type} (lib : Lib) (handler : Handler σ)
    (svc : AccountService σ) (secret : GoString) (r : Request) (s : σ) (w : ResponseWriter)
    (attribution id : GoString) (hauth : Authenticates lib secret r attribution id) :
    authMiddleware lib handler svc secret r s w = quotaGate handler svc attribution id r s w := by
  obtain ⟨tok, h1, h2⟩ := hauth
  simp only [authMiddleware, h1, h2]

theorem quotaGate_grant {σ : Type} (handler : Handler σ) (svc : AccountService σ)
    (attribution id : GoString) (r : Request) (s s1 : σ) (w : ResponseWriter) (account : Account)
    (hget : svc.getAccount s id = (.found account, s1))
    (hty : account.WellTyped) (hlt : account.callCount < account.requestLimit) :
    quotaGate handler svc attribution id r s w =
      match (svc.updateAccount s1 (account.withCallCount (account.callCount + 1))).1 with
      | some msg =>
        done (svc.updateAccount s1 (account.withCallCount (account.callCount + 1))).2
          (writeJSONResponse w 500 msg)
          [.getAccount id, .updateAccount (account.withCallCount (account.callCount + 1))]
      | none =>
        (handler (r.withAttribution attribution)
          (svc.updateAccount s1 (account.withCallCount (account.callCount + 1))).2 w).after
          [.getAccount id, .updateAccount (account.withCallCount (account.callCount + 1)),
            .handler (r.withAttribution attribution)] := by
  have hnot : ¬ account.callCount ≥ account.requestLimit := by omega
  simp only [quotaGate, hget, hnot, if_false, incrCallCount_eq account hty hlt]

theorem quotaGate_exhausted {σ : Type} (handler : Handler σ) (svc : AccountService σ)
    (attribution id : GoString) (r : Request) (s s1 : σ) (w : ResponseWriter) (account : Account)
    (hget : svc.getAccount s id = (.found account, s1))
    (hge : account.callCount ≥ account.requestLimit) :
    quotaGate handler svc attribution id r s w =
      done s1 (writeJSONResponse w 429 (str "Rate limit exceeded")) [.getAccount id] := by
  simp only [quotaGate, hget, hge, if_true]

theorem svcRequest_authenticates : Authenticates toyLib (str "k") svcRequest (str "svc") (str "X") :=
  ⟨svcToken, by rfl, by decide⟩

theorem svcAccount_wellTyped : svcAccount.WellTyped := by
  unfold Account.WellTyped IsInt minInt maxInt svcAccount
  decide

/-! ## Credential extraction -/

theorem extractCredentials_ok_iff (lib : Lib) (authHeader attribution token : GoString) :
    extractCredentials lib authHeader = .ok (attribution, token) ↔
      ∃ scheme encoded,
        authHeader = scheme ++ space :: encoded ∧ space ∉ scheme ∧ space ∉ encoded ∧
        toLower lib.unicodeLower scheme = str "basic" ∧
        base64Decode encoded = some (attribution ++ colon :: token) ∧
        colon ∉ attribution ∧ colon ∉ token := by
  constructor
  · intro h
    unfold extractCredentials at h
    split_ifs at h with h0
    split at h
    · rename_i scheme encoded hsp
      split_ifs at h with hlow
      split at h
      · exact absurd h (by simp)
      · rename_i payload hdec
        split at h
        · rename_i a t hpl
          simp only [Except.ok.injEq, Prod.mk.injEq] at h
          obtain ⟨rfl, rfl⟩ := h
          obtain ⟨e1, e2, e3⟩ := (split_eq_pair_iff space authHeader scheme encoded).1 hsp
          obtain ⟨p1, p2, p3⟩ := (split_eq_pair_iff colon payload a t).1 hpl
          exact ⟨scheme, encoded, e1, e2, e3, not_not.1 hlow, by rw [hdec, p1], p2, p3⟩
        · exact absurd h (by simp)
    · exact absurd h (by simp)
  · rintro ⟨scheme, encoded, e1, e2, e3, hlow, hdec, p2, p3⟩
    have h0 : authHeader ≠ [] := by rw [e1]; simp
    have hsp := (split_eq_pair_iff space authHeader scheme encoded).2 ⟨e1, e2, e3⟩
    have hpl := (split_eq_pair_iff colon _ attribution token).2 ⟨rfl, p2, p3⟩
    simp only [extractCredentials, h0, if_false, hsp, hlow, ne_eq, not_true_eq_false, hdec, hpl]

theorem acceptedHeaderForm_iff (lib : Lib) (authHeader : GoString) :
    AcceptedHeaderForm lib authHeader ↔ ∃ p, extractCredentials lib authHeader = .ok p := by
  constructor
  · rintro ⟨scheme, encoded, attribution, token, h⟩
    exact ⟨(attribution, token), (extractCredentials_ok_iff lib authHeader attribution token).2
      ⟨scheme, encoded, h⟩⟩
  · rintro ⟨⟨attribution, token⟩, h⟩
    obtain ⟨scheme, encoded, h1⟩ := (extractCredentials_ok_iff lib authHeader attribution token).1 h
    exact ⟨scheme, encoded, attribution, token, h1⟩

theorem extractCredentials_error (lib : Lib) (authHeader : GoString)
    (h : ¬ AcceptedHeaderForm lib authHeader) :
    extractCredentials lib authHeader =
      .error (if authHeader = [] then (407, str "Proxy authorization required")
        else (400, str "Invalid proxy authorization header")) := by
  have hno : ∀ p, extractCredentials lib authHeader ≠ .ok p :=
    fun p hp => h ((acceptedHeaderForm_iff lib authHeader).2 ⟨p, hp⟩)
  by_cases h0 : authHeader = []
  · simp [extractCredentials, h0]
  · simp only [h0, if_false]
    unfold extractCredentials at hno ⊢
    simp only [h0, if_false] at hno ⊢
    split
    · rename_i scheme encoded hsp
      simp only [hsp] at hno
      split_ifs with hlow
      · rfl
      · simp only [hlow, if_false] at hno
        split
        · rfl
        · rename_i payload hdec
          simp only [hdec] at hno
          split
          · rename_i a t hpl
            simp only [hpl] at hno
            exact absurd rfl (hno (a, t))
          · rfl
    · rfl

theorem isBytes_append_colon (attribution token : GoString) (h1 : IsBytes attribution)
    (h2 : IsBytes token) : IsBytes (attribution ++ colon :: token) := by
  intro b hb
  simp only [List.mem_append, List.mem_cons] at hb
  rcases hb with hb | hb | hb
  · exact h1 b hb
  · rw [hb]; decide
  · exact h2 b hb

theorem toLower_Basic (f : GoString → GoString) : toLower f (str "Basic") = str "basic" := by
  rfl

theorem extractCredentials_basicHeader (lib : Lib) (attribution token : GoString)
    (hb1 : IsBytes attribution) (hb2 : IsBytes token) (h1 : colon ∉ attribution) (h2 : colon ∉ token) :
    extractCredentials lib (basicHeader attribution token) = .ok (attribution, token) := by
  have hb := isBytes_append_colon attribution token hb1 hb2
  refine (extractCredentials_ok_iff lib _ attribution token).2
    ⟨str "Basic", base64Encode (attribution ++ colon :: token), ?_, by decide,
      space_not_mem_encode _ hb, toLower_Basic _, base64Decode_encode _ hb, h1, h2⟩
  show str "Basic " ++ _ = str "Basic" ++ space :: _
  have : str "Basic " = str "Basic" ++ [space] := by decide
  rw [this]
  simp

/-- C6 (credential extraction round trip). For byte strings attribution and token without a
colon, the header "Basic " + base64(attribution + ":" + token) passes all header checks and is
split into exactly (attribution, token). On a request carrying it, authMiddleware hands this
token to the verifier and this attribution label to the quota stage; and when the token verifies
and the quota gate grants the request, the handler is invoked on the request whose context
value is exactly this attribution label, all other fields of the request unchanged. -/
theorem credential_round_trip (lib : Lib) (attribution token : GoString)
    (hb1 : IsBytes attribution) (hb2 : IsBytes token) (h1 : colon ∉ attribution) (h2 : colon ∉ token) :
    extractCredentials lib (basicHeader attribution token) = .ok (attribution, token) ∧
    (∀ {σ : Type} (handler : Handler σ) (svc : AccountService σ) (secret : GoString) (r : Request)
      (s : σ) (w : ResponseWriter), r.headerGet = basicHeader attribution token →
      authMiddleware lib handler svc secret r s w =
        match verifyToken lib secret token with
        | .invalid => done s (writeJSONResponse w 400 (str "Invalid JWT")) []
        | .panics v => { store := s, w := w, calls := [], panic := some v }
        | .id id => quotaGate handler svc attribution id r s w) ∧
    (∀ {σ : Type} (handler : Handler σ) (svc : AccountService σ) (secret : GoString) (r : Request)
      (s s1 s2 : σ) (w : ResponseWriter) (id : GoString) (account : Account),
      r.headerGet = basicHeader attribution token →
      verifyToken lib secret token = .id id →
      svc.getAccount s id = (.found account, s1) →
      account.WellTyped → account.callCount < account.requestLimit →
      svc.updateAccount s1 (account.withCallCount (account.callCount + 1)) = (none, s2) →
      authMiddleware lib handler svc secret r s w =
        (handler { method := r.method, host := r.host, remoteAddr := r.remoteAddr,
                   proxyAuthorization := r.proxyAuthorization, attribution := some attribution }
          s2 w).after
          [.getAccount id, .updateAccount (account.withCallCount (account.callCount + 1)),
            .handler { method := r.method, host := r.host, remoteAddr := r.remoteAddr,
                       proxyAuthorization := r.proxyAuthorization,
                       attribution := some attribution }]) := by
  have h := extractCredentials_basicHeader lib attribution token hb1 hb2 h1 h2
  refine ⟨h, ?_, ?_⟩
  · intro σ handler svc secret r s w hr
    simp only [authMiddleware, hr, h]
  · intro σ handler svc secret r s s1 s2 w id account hr hver hget hty hlt hupd
    have hauth : Authenticates lib secret r attribution id := ⟨token, by rw [hr]; exact h, hver⟩
    rw [authMiddleware_of_authenticates lib handler svc secret r s w attribution id hauth,
      quotaGate_grant handler svc attribution id r s s1 w account hget hty hlt, hupd]
    rfl

/-- Witness of C6: the attribution label "svc" and the token of the account "X"; the handler
receives the request with "svc" in its context and logs the tunnel under that label. -/
theorem credential_round_trip_witness :
    extractCredentials toyLib (basicHeader (str "svc") svcToken) = .ok (str "svc", svcToken) ∧
      authMiddleware toyLib (handleTunneling netUp) gormAccountService (str "k") svcRequest svcStore
          ResponseWriter.fresh =
        (handleTunneling netUp
          { method := svcRequest.method, host := svcRequest.host, remoteAddr := svcRequest.remoteAddr,
            proxyAuthorization := svcRequest.proxyAuthorization, attribution := some (str "svc") }
          (svcStore.save (svcAccount.withCallCount (svcAccount.callCount + 1)))
          ResponseWriter.fresh).after
          [.getAccount (str "X"), .updateAccount (svcAccount.withCallCount (svcAccount.callCount + 1)),
            .handler
              { method := svcRequest.method, host := svcRequest.host,
                remoteAddr := svcRequest.remoteAddr,
                proxyAuthorization := svcRequest.proxyAuthorization,
                attribution := some (str "svc") }] :=
  have h := credential_round_trip toyLib (str "svc") svcToken (by unfold IsBytes; decide)
    (by unfold IsBytes; decide) (by decide) (by decide)
  ⟨h.1, h.2.2 (handleTunneling netUp) gormAccountService (str "k") svcRequest svcStore svcStore
    (svcStore.save (svcAccount.withCallCount (svcAccount.callCount + 1))) ResponseWriter.fresh
    (str "X") svcAccount rfl (by decide) (by decide) svcAccount_wellTyped (by decide) rfl⟩

/-- C5 as stated fails: a header that is not "Basic " followed by an encoding (its scheme is
written "basic") passes the header checks; the store and the handler are called and the response
is neither 407 nor 400. -/
theorem malformed_credential_counterexample :
    ¬ SpecHeaderForm lowerCaseHeader ∧
      (authMiddleware toyLib (handleTunneling netUp) gormAccountService (str "k")
        (connectRequest lowerCaseHeader) svcStore ResponseWriter.fresh).calls.take 3 =
        [.getAccount (str "X"), .updateAccount (svcAccount.withCallCount 1),
          .handler ((connectRequest lowerCaseHeader).withAttribution (str "svc"))] ∧
      (authMiddleware toyLib (handleTunneling netUp) gormAccountService (str "k")
        (connectRequest lowerCaseHeader) svcStore ResponseWriter.fresh).w.status = some 200 := by
  refine ⟨?_, by decide, by decide⟩
  rintro ⟨attribution, token, -, -, h⟩
  have e1 : lowerCaseHeader.head? = some 98 := by decide
  have e2 : (basicHeader attribution token).head? = some 66 := rfl
  rw [h, e2] at e1
  exact absurd e1 (by decide)

/-- C5 (malformed credential), amended. A header value that is not of the accepted form (two
pieces around a single space, the first lower-casing to "basic", the second decoding under the
standard base64 decoder to a payload with exactly one colon) is answered with 407 when it is
empty and with 400 otherwise; no call is made on the account store or the handler and the
store is untouched. -/
theorem malformed_credential {σ : Type} (lib : Lib) (handler : Handler σ) (svc : AccountService σ)
    (secret : GoString) (r : Request) (s : σ) (w : ResponseWriter)
    (h : ¬ AcceptedHeaderForm lib r.headerGet) :
    authMiddleware lib handler svc secret r s w =
        done s (writeJSONResponse w (if r.headerGet = [] then 407 else 400)
          (if r.headerGet = [] then str "Proxy authorization required"
            else str "Invalid proxy authorization header")) [] ∧
      (authMiddleware lib handler svc secret r s w).calls = [] ∧
      (authMiddleware lib handler svc secret r s w).store = s ∧
      (w.status = none →
        (authMiddleware lib handler svc secret r s w).w.status =
          some (if r.headerGet = [] then 407 else 400)) := by
  have he := extractCredentials_error lib r.headerGet h
  have hres : authMiddleware lib handler svc secret r s w =
      done s (writeJSONResponse w (if r.headerGet = [] then 407 else 400)
        (if r.headerGet = [] then str "Proxy authorization required"
          else str "Invalid proxy authorization header")) [] := by
    by_cases h0 : r.headerGet = []
    · simp only [h0, if_true] at he ⊢
      simp only [authMiddleware, h0, he]
    · simp only [h0, if_false] at he ⊢
      simp only [authMiddleware, he]
  rw [hres]
  exact ⟨rfl, rfl, rfl, fun hw => status_writeJSONResponse w _ _ hw⟩

/-- Witness of C5: the scheme Bearer. -/
theorem malformed_credential_witness :
    (authMiddleware toyLib (handleTunneling netUp) gormAccountService (str "k")
      (connectRequest (str "Bearer c3ZjOnRvaw==")) svcStore ResponseWriter.fresh).calls = [] :=
  (malformed_credential toyLib (handleTunneling netUp) gormAccountService (str "k")
    (connectRequest (str "Bearer c3ZjOnRvaw==")) svcStore ResponseWriter.fresh
    (fun hacc => by
      obtain ⟨p, hp⟩ := (acceptedHeaderForm_iff toyLib _).1 hacc
      have he : extractCredentials toyLib (connectRequest (str "Bearer c3ZjOnRvaw==")).headerGet =
          .error (400, str "Invalid proxy authorization header") := by rfl
      rw [he] at hp
      exact absurd hp (by simp))).2.1

/-! ## Quota gate -/

/-- C1 (quota grant). When the credential of the request verifies to an account id for which the
store returns a record with callCount < requestLimit, authMiddleware calls GetAccount and then
UpdateAccount once, with the record whose callCount is the stored one plus exactly 1 and whose
id, name and requestLimit are the stored ones. When the update succeeds the handler is invoked
once, on the updated store, as the last step, with the attribution label in the request context;
when the update fails the response is 500 and the handler is not invoked. -/
theorem quota_grant {σ : Type} (lib : Lib) (handler : Handler σ) (svc : AccountService σ)
    (secret : GoString) (r : Request) (s s1 : σ) (w : ResponseWriter) (attribution id : GoString)
    (account : Account)
    (hauth : Authenticates lib secret r attribution id)
    (hget : svc.getAccount s id = (.found account, s1))
    (hty : account.WellTyped)
    (hlt : account.callCount < account.requestLimit) :
    ((account.withCallCount (account.callCount + 1)).callCount = account.callCount + 1 ∧
      (account.withCallCount (account.callCount + 1)).id = account.id ∧
      (account.withCallCount (account.callCount + 1)).name = account.name ∧
      (account.withCallCount (account.callCount + 1)).requestLimit = account.requestLimit) ∧
    (∀ s2, svc.updateAccount s1 (account.withCallCount (account.callCount + 1)) = (none, s2) →
      authMiddleware lib handler svc secret r s w =
        (handler (r.withAttribution attribution) s2 w).after
          [.getAccount id, .updateAccount (account.withCallCount (account.callCount + 1)),
            .handler (r.withAttribution attribution)]) ∧
    (∀ msg s2, svc.updateAccount s1 (account.withCallCount (account.callCount + 1)) = (some msg, s2) →
      authMiddleware lib handler svc secret r s w =
        done s2 (writeJSONResponse w 500 msg)
          [.getAccount id, .updateAccount (account.withCallCount (account.callCount + 1))] ∧
      (w.status = none → (authMiddleware lib handler svc secret r s w).w.status = some 500)) := by
  have hq := quotaGate_grant handler svc attribution id r s s1 w account hget hty hlt
  rw [← authMiddleware_of_authenticates lib handler svc secret r s w attribution id hauth] at hq
  refine ⟨⟨rfl, rfl, rfl, rfl⟩, ?_, ?_⟩
  · intro s2 hupd
    rw [hq, hupd]
  · intro msg s2 hupd
    rw [hq, hupd]
    exact ⟨rfl, fun hw => status_writeJSONResponse w 500 msg hw⟩

/-- Witness of C1: the first request on the account "svc" (limit 2, no call counted). -/
theorem quota_grant_witness :
    authMiddleware toyLib (handleTunneling netUp) gormAccountService (str "k") svcRequest svcStore
        ResponseWriter.fresh =
      (handleTunneling netUp (svcRequest.withAttribution (str "svc"))
        (svcStore.save (svcAccount.withCallCount (svcAccount.callCount + 1))) ResponseWriter.fresh).after
        [.getAccount (str "X"), .updateAccount (svcAccount.withCallCount (svcAccount.callCount + 1)),
          .handler (svcRequest.withAttribution (str "svc"))] :=
  (quota_grant toyLib (handleTunneling netUp) gormAccountService (str "k") svcRequest svcStore svcStore
    ResponseWriter.fresh (str "svc") (str "X") svcAccount svcRequest_authenticates (by decide)
    svcAccount_wellTyped (by decide)).2.1 _ rfl

/-- C2 (quota exhausted). When the credential of the request verifies to an account id for which
the store returns a record with callCount >= requestLimit, authMiddleware answers 429 after the
one call of GetAccount: UpdateAccount and the handler are not called and the store is as
GetAccount left it. -/
theorem quota_exhausted {σ : Type} (lib : Lib) (handler : Handler σ) (svc : AccountService σ)
    (secret : GoString) (r : Request) (s s1 : σ) (w : ResponseWriter) (attribution id : GoString)
    (account : Account)
    (hauth : Authenticates lib secret r attribution id)
    (hget : svc.getAccount s id = (.found account, s1))
    (hge : account.callCount ≥ account.requestLimit) :
    authMiddleware lib handler svc secret r s w =
        done s1 (writeJSONResponse w 429 (str "Rate limit exceeded")) [.getAccount id] ∧
      (w.status = none → (authMiddleware lib handler svc secret r s w).w.status = some 429) ∧
      (authMiddleware lib handler svc secret r s w).store = s1 ∧
      (∀ a, Call.updateAccount a ∉ (authMiddleware lib handler svc secret r s w).calls) ∧
      (∀ r1, Call.handler r1 ∉ (authMiddleware lib handler svc secret r s w).calls) := by
  rw [authMiddleware_of_authenticates lib handler svc secret r s w attribution id hauth,
    quotaGate_exhausted handler svc attribution id r s s1 w account hget hge]
  refine ⟨rfl, fun hw => status_writeJSONResponse w 429 _ hw, rfl, ?_, ?_⟩
  · intro a
    simp [done]
  · intro r1
    simp [done]

/-- Witness of C2: the account "svc" with both calls of its limit counted; the table is left
as it was. -/
theorem quota_exhausted_witness :
    (authMiddleware toyLib (handleTunneling netUp) gormAccountService (str "k") svcRequest
        { rows := [svcAccount.withCallCount 2], now := 9 } ResponseWriter.fresh).w.status = some 429 ∧
      (authMiddleware toyLib (handleTunneling netUp) gormAccountService (str "k") svcRequest
        { rows := [svcAccount.withCallCount 2], now := 9 } ResponseWriter.fresh).store =
        { rows := [svcAccount.withCallCount 2], now := 9 } :=
  have h := quota_exhausted toyLib (handleTunneling netUp) gormAccountService (str "k") svcRequest
    { rows := [svcAccount.withCallCount 2], now := 9 } { rows := [svcAccount.withCallCount 2], now := 9 }
    ResponseWriter.fresh (str "svc") (str "X") (svcAccount.withCallCount 2) svcRequest_authenticates
    (by decide) (by decide)
  ⟨h.2.1 rfl, h.2.2.1⟩

/-! ## Fault boundary -/

/-- C9 as stated fails. A handler that panics, before writing anything, with an error whose
method Error() itself panics (a nil pointer of type ErrAccountNotFound): the call err.Error() of
line 396 panics inside the deferred function, so the panic leaves handleErrors and no response
is written. And a handler that takes the connection over without writing and then panics with a
string: handleErrors returns, but no status 500 is written. -/
theorem fault_boundary_counterexample :
    ((faultyErrorHandler svcRequest svcStore ResponseWriter.fresh).panic =
        some (.faultyError (.error nilDereference)) ∧
      (faultyErrorHandler svcRequest svcStore ResponseWriter.fresh).w.status = none ∧
      (handleErrors faultyErrorHandler svcRequest svcStore ResponseWriter.fresh).panic =
        some (.error nilDereference) ∧
      (handleErrors faultyErrorHandler svcRequest svcStore ResponseWriter.fresh).w.status = none) ∧
    ((hijackThenPanic svcRequest svcStore ResponseWriter.fresh).panic = some (.string (str "boom")) ∧
      (hijackThenPanic svcRequest svcStore ResponseWriter.fresh).w.status = none ∧
      (handleErrors hijackThenPanic svcRequest svcStore ResponseWriter.fresh).panic = none ∧
      (handleErrors hijackThenPanic svcRequest svcStore ResponseWriter.fresh).w.status = none) := by
  decide

/-- C9 (fault boundary), amended. If the handler panics with a string, with an error whose
method Error() returns, or with any other value, and it has neither written a response nor
taken the connection over, the handler built by handleErrors returns without a panic and the
response is the one http.Error writes, with status 500; if the handler does not panic,
handleErrors leaves exactly what the handler left. -/
theorem fault_boundary {σ : Type} (h : Handler σ) (r : Request) (s : σ) (w : ResponseWriter) :
    (∀ v, (h r s w).panic = some v → (∀ v1, v ≠ .faultyError v1) →
      (h r s w).hijacked = false → (h r s w).w.status = none →
      (handleErrors h r s w).panic = none ∧ (handleErrors h r s w).w.status = some 500 ∧
      ∃ text, panicText v = .ok text ∧
        (handleErrors h r s w).w = httpError (h r s w).w text 500) ∧
    ((h r s w).panic = none → handleErrors h r s w = h r s w) := by
  constructor
  · intro v hv hne hhij hw
    cases v with
    | string t =>
      simp only [handleErrors, hv, panicText, hhij, Bool.false_eq_true, if_false]
      exact ⟨trivial, status_httpError _ _ 500 hw, t, rfl, rfl⟩
    | error msg =>
      simp only [handleErrors, hv, panicText, hhij, Bool.false_eq_true, if_false]
      exact ⟨trivial, status_httpError _ _ 500 hw, msg, rfl, rfl⟩
    | faultyError v1 => exact absurd rfl (hne v1)
    | other tag =>
      simp only [handleErrors, hv, panicText, hhij, Bool.false_eq_true, if_false]
      exact ⟨trivial, status_httpError _ _ 500 hw, _, rfl, rfl⟩
  · intro hv
    simp only [handleErrors, hv]

/-- Witness of C9: handleTunneling panics, with a run-time error whose text is available, on a
request without attribution in its context, and answers 503 without a panic when the dial
fails. -/
theorem fault_boundary_witness :
    ((handleErrors (handleTunneling netDown) svcRequest svcStore ResponseWriter.fresh).panic = none ∧
      (handleErrors (handleTunneling netDown) svcRequest svcStore ResponseWriter.fresh).w.status =
        some 500) ∧
    handleErrors (handleTunneling netDown) (svcRequest.withAttribution (str "svc")) svcStore
        ResponseWriter.fresh =
      handleTunneling netDown (svcRequest.withAttribution (str "svc")) svcStore ResponseWriter.fresh :=
  have h1 := (fault_boundary (handleTunneling netDown) svcRequest svcStore ResponseWriter.fresh).1
      (.error (assertionMessage none)) rfl (fun v1 hv => by cases hv) rfl rfl
  ⟨⟨h1.1, h1.2.1⟩,
    (fault_boundary (handleTunneling netDown) (svcRequest.withAttribution (str "svc")) svcStore
      ResponseWriter.fresh).2 rfl⟩

/-! ## Token verification -/

theorem getSigningMethod_not_hmac (alg : GoString) (m : SigningMethod)
    (hne : alg ≠ str "HS256" ∧ alg ≠ str "HS384" ∧ alg ≠ str "HS512")
    (h : getSigningMethod alg = some m) : m.isHMAC = false := by
  unfold getSigningMethod at h
  rw [if_neg hne.1, if_neg hne.2.1, if_neg hne.2.2] at h
  by_cases hc : alg = str "RS256"
  · rw [if_pos hc] at h; injection h with h1; rw [← h1]; rfl
  rw [if_neg hc] at h
  clear hc
  by_cases hc : alg = str "RS384"
  · rw [if_pos hc] at h; injection h with h1; rw [← h1]; rfl
  rw [if_neg hc] at h
  clear hc
  by_cases hc : alg = str "RS512"
  · rw [if_pos hc] at h; injection h with h1; rw [← h1]; rfl
  rw [if_neg hc] at h
  clear hc
  by_cases hc : alg = str "PS256"
  · rw [if_pos hc] at h; injection h with h1; rw [← h1]; rfl
  rw [if_neg hc] at h
  clear hc
  by_cases hc : alg = str "PS384"
  · rw [if_pos hc] at h; injection h with h1; rw [← h1]; rfl
  rw [if_neg hc] at h
  clear hc
  by_cases hc : alg = str "PS512"
  · rw [if_pos hc] at h; injection h with h1; rw [← h1]; rfl
  rw [if_neg hc] at h
  clear hc
  by_cases hc : alg = str "ES256"
  · rw [if_pos hc] at h; injection h with h1; rw [← h1]; rfl
  rw [if_neg hc] at h
  clear hc
  by_cases hc : alg = str "ES384"
  · rw [if_pos hc] at h; injection h with h1; rw [← h1]; rfl
  rw [if_neg hc] at h
  clear hc
  by_cases hc : alg = str "ES512"
  · rw [if_pos hc] at h; injection h with h1; rw [← h1]; rfl
  rw [if_neg hc] at h
  clear hc
  by_cases hc : alg = str "EdDSA"
  · rw [if_pos hc] at h; injection h with h1; rw [← h1]; rfl
  rw [if_neg hc] at h
  clear hc
  by_cases hc : alg = str "none"
  · rw [if_pos hc] at h; injection h with h1; rw [← h1]; rfl
  rw [if_neg hc] at h
  clear hc
  injection h

theorem jwtParse_valid (lib : Lib) (tokenString : GoString) (kf : Token → Option GoString)
    (token : Token) (h : jwtParse lib tokenString kf = some token) : token.valid = true := by
  unfold jwtParse at h
  repeat' split at h
  all_goals first
    | (cases h; rfl)
    | cases h

theorem declaredAlg_eq_some (lib : Lib) (tokenString alg : GoString)
    (hdecl : declaredAlg lib tokenString = some alg) :
    ∃ seg0 seg1 seg2, split dot tokenString = [seg0, seg1, seg2] ∧
      lib.parseHeader seg0 = some (some alg) := by
  unfold declaredAlg at hdecl
  split at hdecl
  · rename_i seg0 seg1 seg2 hsp
    refine ⟨seg0, seg1, seg2, hsp, ?_⟩
    cases hh : lib.parseHeader seg0 with
    | none => rw [hh] at hdecl; exact absurd hdecl (by simp [Option.join])
    | some header =>
      rw [hh] at hdecl
      cases header with
      | none => exact absurd hdecl (by simp [Option.join])
      | some a =>
        simp [Option.join] at hdecl
        rw [hdecl]
  · exact absurd hdecl (by simp)

theorem jwtParse_not_hmac (lib : Lib) (secret tokenString alg : GoString)
    (hdecl : declaredAlg lib tokenString = some alg)
    (hne : alg ≠ str "HS256" ∧ alg ≠ str "HS384" ∧ alg ≠ str "HS512") :
    jwtParse lib tokenString (keyFunc secret) = none := by
  obtain ⟨seg0, seg1, seg2, hsp, hh⟩ := declaredAlg_eq_some lib tokenString alg hdecl
  simp only [jwtParse, hsp, hh]
  cases lib.parseClaims seg1 with
  | none => rfl
  | some claims =>
    cases hm : getSigningMethod alg with
    | none => rfl
    | some m =>
      have hnot := getSigningMethod_not_hmac alg m hne hm
      simp [keyFunc, hnot]

/-- C7 as stated fails: a token that declares HS384, not the algorithm HS256 of CreateAccount,
and carries the HS384 tag under the secret passes the key-selection check and is verified; the
account store is called and the tunnel is opened. -/
theorem algorithm_pinning_counterexample :
    declaredAlg toyLib svcToken384 = some (str "HS384") ∧ str "HS384" ≠ str "HS256" ∧
      verifyToken toyLib (str "k") svcToken384 = .id (str "X") ∧
      (authMiddleware toyLib (handleTunneling netUp) gormAccountService (str "k") svcRequest384 svcStore
        ResponseWriter.fresh).calls.take 2 =
        [.getAccount (str "X"), .updateAccount (svcAccount.withCallCount 1)] ∧
      (authMiddleware toyLib (handleTunneling netUp) gormAccountService (str "k") svcRequest384 svcStore
        ResponseWriter.fresh).w.status = some 200 := by
  refine ⟨by decide, by decide, by decide, by decide, by decide⟩

/-- C7 (algorithm check), amended. Let the token declare the algorithm alg. If alg is none of
HS256, HS384, HS512 (another family, "none", or an unknown name), the key function returns an
error whatever the claims are, the token is rejected before its signature or claims are looked
at, the response is 400 "Invalid JWT", and no call is made on the account store or the handler.
If alg is HS256, HS384 or HS512, the key function returns the secret and the token is accepted
exactly when its claims are valid and its signature verifies under that method with the
secret: a failed verification is answered 400 "Invalid JWT", a successful one with a string
claim "id" goes on to the quota gate for that id. -/
theorem algorithm_check {σ : Type} (lib : Lib) (handler : Handler σ) (svc : AccountService σ)
    (secret : GoString) (r : Request) (s : σ) (w : ResponseWriter)
    (attribution tokenString alg : GoString)
    (hext : extractCredentials lib r.headerGet = .ok (attribution, tokenString))
    (hdecl : declaredAlg lib tokenString = some alg) :
    (alg ≠ str "HS256" ∧ alg ≠ str "HS384" ∧ alg ≠ str "HS512" →
      (∀ m claims, getSigningMethod alg = some m →
        keyFunc secret { alg := alg, method := m, claims := claims, valid := false } = none) ∧
      authMiddleware lib handler svc secret r s w =
        done s (writeJSONResponse w 400 (str "Invalid JWT")) [] ∧
      (authMiddleware lib handler svc secret r s w).calls = [] ∧
      (authMiddleware lib handler svc secret r s w).store = s ∧
      (w.status = none → (authMiddleware lib handler svc secret r s w).w.status = some 400)) ∧
    (∀ m, (alg = str "HS256" ∧ m = .HS256) ∨ (alg = str "HS384" ∧ m = .HS384) ∨
        (alg = str "HS512" ∧ m = .HS512) →
      ∀ seg0 seg1 seg2 claims, split dot tokenString = [seg0, seg1, seg2] →
        lib.parseClaims seg1 = some claims →
        getSigningMethod alg = some m ∧
        keyFunc secret { alg := alg, method := m, claims := claims, valid := false } = some secret ∧
        jwtParse lib tokenString (keyFunc secret) =
          (if (lib.claimsValid claims && lib.verify m (seg0 ++ dot :: seg1) seg2 secret) = true then
            some { alg := alg, method := m, claims := claims, valid := true }
          else none) ∧
        ((lib.claimsValid claims && lib.verify m (seg0 ++ dot :: seg1) seg2 secret) = false →
          authMiddleware lib handler svc secret r s w =
            done s (writeJSONResponse w 400 (str "Invalid JWT")) []) ∧
        (∀ id, (lib.claimsValid claims && lib.verify m (seg0 ++ dot :: seg1) seg2 secret) = true →
          claims.get (str "id") = some (.string id) →
          authMiddleware lib handler svc secret r s w =
            quotaGate handler svc attribution id r s w)) := by
  constructor
  · intro hne
    have hp := jwtParse_not_hmac lib secret tokenString alg hdecl hne
    have hres : authMiddleware lib handler svc secret r s w =
        done s (writeJSONResponse w 400 (str "Invalid JWT")) [] := by
      simp only [authMiddleware, hext, verifyToken, hp]
    refine ⟨?_, hres, ?_, ?_, ?_⟩
    · intro m claims hm
      simp [keyFunc, getSigningMethod_not_hmac alg m hne hm]
    · rw [hres]; rfl
    · rw [hres]; rfl
    · intro hw
      rw [hres]
      exact status_writeJSONResponse w 400 _ hw
  · intro m hm seg0 seg1 seg2 claims hsp hpc
    obtain ⟨t0, t1, t2, hsp2, hh⟩ := declaredAlg_eq_some lib tokenString alg hdecl
    rw [hsp] at hsp2
    simp only [List.cons.injEq, and_true] at hsp2
    obtain ⟨e0, -, -⟩ := hsp2
    subst e0
    have hgm : getSigningMethod alg = some m := by
      rcases hm with ⟨e1, e2⟩ | ⟨e1, e2⟩ | ⟨e1, e2⟩ <;> subst e1 <;> subst e2 <;> rfl
    have hmac : m.isHMAC = true := by
      rcases hm with ⟨-, e2⟩ | ⟨-, e2⟩ | ⟨-, e2⟩ <;> subst e2 <;> rfl
    have hkf : ∀ c v, keyFunc secret { alg := alg, method := m, claims := c, valid := v } =
        some secret := by
      intro c v
      simp [keyFunc, hmac]
    have hparse : jwtParse lib tokenString (keyFunc secret) =
        (if (lib.claimsValid claims && lib.verify m (seg0 ++ dot :: seg1) seg2 secret) = true then
          some { alg := alg, method := m, claims := claims, valid := true }
        else none) := by
      simp only [jwtParse, hsp, hh, hpc, hgm, hkf]
    refine ⟨hgm, hkf claims false, hparse, ?_, ?_⟩
    · intro hfalse
      rw [hfalse] at hparse
      simp only [authMiddleware, hext, verifyToken, hparse]
      rfl
    · intro id htrue hid
      rw [htrue] at hparse
      simp only [if_true] at hparse
      simp only [authMiddleware, hext, verifyToken, hparse, hid, if_true]

/-- Witness of C7: a token declaring RS256 is rejected; a token declaring HS512 that carries the
HS512 tag under the secret goes on to the quota gate. -/
theorem algorithm_check_witness :
    authMiddleware toyLib (handleTunneling netUp) gormAccountService (str "k")
        (connectRequest (basicHeader (str "svc") (str "RS256.X.kaRS256X"))) svcStore
        ResponseWriter.fresh =
      done svcStore (writeJSONResponse ResponseWriter.fresh 400 (str "Invalid JWT")) [] ∧
    authMiddleware toyLib (handleTunneling netUp) gormAccountService (str "k") svcRequest512 svcStore
        ResponseWriter.fresh =
      quotaGate (handleTunneling netUp) gormAccountService (str "svc") (str "X") svcRequest512 svcStore
        ResponseWriter.fresh :=
  ⟨((algorithm_check toyLib (handleTunneling netUp) gormAccountService (str "k")
      (connectRequest (basicHeader (str "svc") (str "RS256.X.kaRS256X"))) svcStore ResponseWriter.fresh
      (str "svc") (str "RS256.X.kaRS256X") (str "RS256") (by rfl) (by decide)).1
      ⟨by decide, by decide, by decide⟩).2.1,
    ((algorithm_check toyLib (handleTunneling netUp) gormAccountService (str "k") svcRequest512 svcStore
      ResponseWriter.fresh (str "svc") svcToken512 (str "HS512") (by rfl) (by decide)).2 .HS512
      (Or.inr (Or.inr ⟨rfl, rfl⟩)) (str "HS512") (str "X") (str "kcHS512X") [(str "id", .string (str "X"))]
      (by decide) (by decide)).2.2.2.2 (str "X") (by decide) (by decide)⟩

theorem verifyToken_no_string_id (lib : Lib) (secret tokenString : GoString) (token : Token)
    (hparse : jwtParse lib tokenString (keyFunc secret) = some token)
    (hid : ∀ id, token.claims.get (str "id") ≠ some (.string id)) :
    verifyToken lib secret tokenString =
      .panics (.error (assertionMessage (token.claims.get (str "id")))) := by
  have hv := jwtParse_valid lib tokenString _ token hparse
  simp only [verifyToken, hparse, hv, if_true]

/-- C8, the code at the failing input: on a correctly signed token without the claim "id" the
type assertion of line 156 panics; authMiddleware writes nothing and calls nothing, and the
handler built by handleErrors answers 500, not 400. -/
theorem missing_id_claim_panics :
    verifyToken toyLib (str "k") noIdToken = .panics (.error (assertionMessage none)) ∧
      authMiddleware toyLib (handleTunneling netUp) gormAccountService (str "k") noIdRequest svcStore
          ResponseWriter.fresh =
        { store := svcStore, w := ResponseWriter.fresh, calls := [],
          panic := some (.error (assertionMessage none)) } ∧
      (handleErrors (connectHandler toyLib netUp gormAccountService (str "k")) noIdRequest svcStore
        ResponseWriter.fresh).w.status = some 500 ∧
      (handleErrors (connectHandler toyLib netUp gormAccountService (str "k")) noIdRequest svcStore
        ResponseWriter.fresh).calls = [] := by
  refine ⟨by decide, by decide, by decide, by decide⟩

/-! ## The store -/

theorem first_id (db : DB) (id : GoString) (a : Account) (h : db.first id = some a) : a.id = id := by
  unfold DB.first at h
  have := List.find?_some h
  simpa using this

theorem find_map_replace (rows : List Account) (a1 : Account) (id : GoString) :
    (rows.map (fun x => if x.id = a1.id then a1 else x)).find? (fun y => decide (y.id = id)) =
      if id = a1.id then (rows.find? (fun y => decide (y.id = id))).map (fun _ => a1)
      else rows.find? (fun y => decide (y.id = id)) := by
  induction rows with
  | nil => simp
  | cons x xs ih =>
    by_cases hid : id = a1.id
    · simp only [hid, if_true] at ih ⊢
      by_cases hx : x.id = a1.id
      · simp [List.find?, hx]
      · simp [List.find?, hx, ih]
    · simp only [hid, if_false] at ih ⊢
      by_cases hx : x.id = a1.id
      · have hne : ¬ a1.id = id := fun e => hid e.symm
        have hne2 : ¬ x.id = id := fun e => hid (by rw [← e, hx])
        simp [List.find?, hx, hne, hne2, ih]
      · by_cases hx2 : x.id = id
        · subst hx2
          simp [List.find?, hx]
        · simp [List.find?, hx, hx2, ih]

theorem first_persist_self (db : DB) (a x : Account) (h : db.first a.id = some x) :
    (db.persist a).first a.id = some { a with updatedAt := db.now } := by
  have hany : db.rows.any (fun y => decide (y.id = a.id)) = true := by
    unfold DB.first at h
    have h1 := List.find?_some h
    have h2 := List.mem_of_find?_eq_some h
    exact List.any_eq_true.2 ⟨x, h2, h1⟩
  unfold DB.first at h
  have hr := find_map_replace db.rows { a with updatedAt := db.now } a.id
  simp only [if_true, h, Option.map_some'] at hr
  simp only [DB.persist, hany, if_true, DB.first]
  exact hr

theorem first_persist_other (db : DB) (a : Account) (id : GoString) (h : id ≠ a.id) :
    (db.persist a).first id = db.first id := by
  have hr := find_map_replace db.rows { a with updatedAt := db.now } id
  simp only [h, if_false] at hr
  have hne : ¬ a.id = id := fun e => h e.symm
  by_cases hany : db.rows.any (fun x => decide (x.id = a.id)) = true
  · simp only [DB.persist, hany, if_true, DB.first]
    exact hr
  · simp only [DB.persist, hany, DB.first, Bool.false_eq_true, if_false, List.find?_append]
    cases db.rows.find? (fun y => decide (y.id = id)) with
    | some y => rfl
    | none => simp [List.find?, hne]

theorem first_save_self (db : DB) (a x : Account) (hkey : a.id ≠ [])
    (h : db.first a.id = some x) :
    (db.save a).first a.id = some { a with updatedAt := db.now } := by
  simp only [DB.save, hkey, if_false]
  exact first_persist_self db a x h

theorem first_save_other (db : DB) (a : Account) (id : GoString) (h : id ≠ a.id) :
    (db.save a).first id = db.first id := by
  by_cases hkey : a.id = []
  · simp only [DB.save, hkey, if_true]
    rfl
  · simp only [DB.save, hkey, if_false]
    exact first_persist_other db a id h

/-- Saving a record with a blank key changes no stored row. -/
theorem first_save_blank (db : DB) (a : Account) (id : GoString) (hkey : a.id = []) :
    (db.save a).first id = db.first id := by
  simp only [DB.save, hkey, if_true]
  rfl

theorem handleTunneling_store {σ : Type} (net : Net) (r : Request) (s : σ) (w : ResponseWriter) :
    (handleTunneling net r s w).store = s := by
  unfold handleTunneling
  repeat' split
  all_goals rfl

theorem gorm_getAccount_found (db : DB) (id : GoString) (a : Account) (h : db.first id = some a) :
    gormAccountService.getAccount db id = (.found a, db) := by
  simp [gormAccountService, h]

theorem gorm_getAccount_missing (db : DB) (id : GoString) (h : db.first id = none) :
    gormAccountService.getAccount db id = (.error (errAccountNotFound id), db) := by
  simp [gormAccountService, h]

/-- One request on the store when the account has quota left. -/
theorem step_grant (lib : Lib) (secret : GoString) (net : Net) (r : Request) (db : DB)
    (w : ResponseWriter) (attribution id : GoString) (account : Account)
    (hauth : Authenticates lib secret r attribution id) (hfind : db.first id = some account)
    (hty : account.WellTyped) (hlt : account.callCount < account.requestLimit) :
    authMiddleware lib (handleTunneling net) gormAccountService secret r db w =
      (handleTunneling net (r.withAttribution attribution)
        (db.save (account.withCallCount (account.callCount + 1))) w).after
        [.getAccount id, .updateAccount (account.withCallCount (account.callCount + 1)),
          .handler (r.withAttribution attribution)] := by
  rw [authMiddleware_of_authenticates lib _ _ secret r db w attribution id hauth,
    quotaGate_grant _ _ attribution id r db db w account (gorm_getAccount_found db id account hfind)
      hty hlt]
  rfl

/-- One request on the store when the account has used its quota. -/
theorem step_exhausted (lib : Lib) (secret : GoString) (net : Net) (r : Request) (db : DB)
    (w : ResponseWriter) (attribution id : GoString) (account : Account)
    (hauth : Authenticates lib secret r attribution id) (hfind : db.first id = some account)
    (hge : account.callCount ≥ account.requestLimit) :
    authMiddleware lib (handleTunneling net) gormAccountService secret r db w =
      done db (writeJSONResponse w 429 (str "Rate limit exceeded")) [.getAccount id] := by
  rw [authMiddleware_of_authenticates lib _ _ secret r db w attribution id hauth,
    quotaGate_exhausted _ _ attribution id r db db w account
      (gorm_getAccount_found db id account hfind) hge]

theorem faithful_getAccount_found (db : DB) (id : GoString) (a : Account) (h : db.first id = some a) :
    faithfulAccountService.getAccount db id = (.found a, db) := by
  simp [faithfulAccountService, h]

/-- One request on the faithful store when the account has quota left. -/
theorem faithful_step_grant (lib : Lib) (secret : GoString) (net : Net) (r : Request) (db : DB)
    (w : ResponseWriter) (attribution id : GoString) (account : Account)
    (hauth : Authenticates lib secret r attribution id) (hfind : db.first id = some account)
    (hty : account.WellTyped) (hlt : account.callCount < account.requestLimit) :
    authMiddleware lib (handleTunneling net) faithfulAccountService secret r db w =
      (handleTunneling net (r.withAttribution attribution)
        (db.persist (account.withCallCount (account.callCount + 1))) w).after
        [.getAccount id, .updateAccount (account.withCallCount (account.callCount + 1)),
          .handler (r.withAttribution attribution)] := by
  rw [authMiddleware_of_authenticates lib _ _ secret r db w attribution id hauth,
    quotaGate_grant _ _ attribution id r db db w account
      (faithful_getAccount_found db id account hfind) hty hlt]
  rfl

/-- One request on the faithful store when the account has used its quota. -/
theorem faithful_step_exhausted (lib : Lib) (secret : GoString) (net : Net) (r : Request) (db : DB)
    (w : ResponseWriter) (attribution id : GoString) (account : Account)
    (hauth : Authenticates lib secret r attribution id) (hfind : db.first id = some account)
    (hge : account.callCount ≥ account.requestLimit) :
    authMiddleware lib (handleTunneling net) faithfulAccountService secret r db w =
      done db (writeJSONResponse w 429 (str "Rate limit exceeded")) [.getAccount id] := by
  rw [authMiddleware_of_authenticates lib _ _ secret r db w attribution id hauth,
    quotaGate_exhausted _ _ attribution id r db db w account
      (faithful_getAccount_found db id account hfind) hge]

/-- The store after one request: untouched, or one record saved with its call count
incremented, and then that record had quota left. -/
theorem authMiddleware_store (lib : Lib) (secret : GoString) (net : Net) (r : Request) (db : DB)
    (w : ResponseWriter) :
    (authMiddleware lib (handleTunneling net) gormAccountService secret r db w).store = db ∨
    ∃ a, db.first a.id = some a ∧ a.callCount < a.requestLimit ∧
      (authMiddleware lib (handleTunneling net) gormAccountService secret r db w).store =
        db.save a.incrCallCount := by
  unfold authMiddleware
  split
  · exact Or.inl rfl
  · split
    · exact Or.inl rfl
    · exact Or.inl rfl
    · rename_i attribution tokenString hext id hver
      cases hfind : db.first id with
      | none =>
        left
        simp only [quotaGate, gorm_getAccount_missing db id hfind]
        rfl
      | some a =>
        have hid := first_id db id a hfind
        by_cases hge : a.callCount ≥ a.requestLimit
        · left
          simp only [quotaGate, gorm_getAccount_found db id a hfind, hge, if_true]
          rfl
        · right
          refine ⟨a, by rw [hid]; exact hfind, by omega, ?_⟩
          simp only [quotaGate, gorm_getAccount_found db id a hfind, hge, if_false]
          simp only [gormAccountService, Result.after, handleTunneling_store]

/-! ## Quota invariant, quota and dial, sequences of requests -/

/-- C3 (quota invariant). For every stored record with 0 <= callCount <= requestLimit (the limit
a value of the type int) and every single request, whatever it carries, processed by
authMiddleware in front of handleTunneling on the store, the record stored afterwards under the
same id still has callCount <= requestLimit and the same limit, and its callCount is the old one
or the old one plus exactly 1: it never decreases and the increment does not wrap around. -/
theorem quota_invariant (lib : Lib) (secret : GoString) (net : Net) (r : Request) (db : DB)
    (w : ResponseWriter) (id : GoString) (account : Account)
    (hfind : db.first id = some account)
    (h0 : 0 ≤ account.callCount) (hle : account.callCount ≤ account.requestLimit)
    (hint : IsInt account.requestLimit) :
    ∃ stored,
      (authMiddleware lib (handleTunneling net) gormAccountService secret r db w).store.first id =
        some stored ∧
      stored.callCount ≤ stored.requestLimit ∧ account.callCount ≤ stored.callCount ∧
      (stored.callCount = account.callCount ∨ stored.callCount = account.callCount + 1) ∧
      IsInt stored.callCount ∧ stored.requestLimit = account.requestLimit := by
  have hc : IsInt account.callCount := by
    unfold IsInt minInt maxInt at hint ⊢
    omega
  rcases authMiddleware_store lib secret net r db w with h | ⟨a, ha, hlt, h⟩
  · rw [h]
    exact ⟨account, hfind, hle, le_refl _, Or.inl rfl, hc, rfl⟩
  · rw [h]
    by_cases hkey : a.id = []
    · rw [first_save_blank db a.incrCallCount id hkey]
      exact ⟨account, hfind, hle, le_refl _, Or.inl rfl, hc, rfl⟩
    by_cases hid : id = a.id
    · subst hid
      rw [hfind] at ha
      simp only [Option.some.injEq] at ha
      subst ha
      have hw := wrapInt_succ account.callCount account.requestLimit hc.1 hlt hint.2
      refine ⟨{ account.incrCallCount with updatedAt := db.now },
        first_save_self db account.incrCallCount account hkey hfind, ?_, ?_, ?_, ?_, rfl⟩
      · show wrapInt (account.callCount + 1) ≤ account.requestLimit
        omega
      · show account.callCount ≤ wrapInt (account.callCount + 1)
        omega
      · right
        exact hw
      · show IsInt (wrapInt (account.callCount + 1))
        unfold IsInt minInt maxInt at hint hc ⊢
        omega
    · rw [first_save_other db a.incrCallCount id hid]
      exact ⟨account, hfind, hle, le_refl _, Or.inl rfl, hc, rfl⟩

/-- Witness of C3: one granted request on the account "svc". -/
theorem quota_invariant_witness :
    ∃ stored,
      (authMiddleware toyLib (handleTunneling netUp) gormAccountService (str "k") svcRequest svcStore
        ResponseWriter.fresh).store.first (str "X") = some stored ∧
      stored.callCount ≤ stored.requestLimit ∧ svcAccount.callCount ≤ stored.callCount ∧
      (stored.callCount = svcAccount.callCount ∨ stored.callCount = svcAccount.callCount + 1) ∧
      IsInt stored.callCount ∧ stored.requestLimit = svcAccount.requestLimit :=
  quota_invariant toyLib (str "k") netUp svcRequest svcStore ResponseWriter.fresh (str "X") svcAccount
    (by decide) (by decide) (by decide) svcAccount_wellTyped.1

/-- C10 as stated fails for an account stored under the empty id: the request is authenticated,
the account has quota left and the dial fails with 503, but Save, given a record with a blank
primary key, inserts a new row instead of updating, and the stored call count of the account
is what it was. -/
theorem quota_consumed_before_dial_counterexample :
    Authenticates toyLib (str "k") blankIdRequest (str "svc") [] ∧
      blankStore.first [] = some blankAccount ∧
      blankAccount.callCount < blankAccount.requestLimit ∧
      netDown.dial blankIdRequest.host = some (str "dial tcp: connection refused") ∧
      (authMiddleware toyLib (handleTunneling netDown) gormAccountService (str "k") blankIdRequest
        blankStore ResponseWriter.fresh).w.status = some 503 ∧
      blankStore.callCount [] = some 0 ∧
      (authMiddleware toyLib (handleTunneling netDown) gormAccountService (str "k") blankIdRequest
        blankStore ResponseWriter.fresh).store.callCount [] = some 0 :=
  ⟨⟨blankIdToken, by rfl, by decide⟩, by decide, by decide, rfl, by decide, by decide, by decide⟩

/-- C10 (quota is consumed before the tunnel is attempted), amended. When the request is
authenticated to an account with a non-empty id, the account has quota left and the dial
fails, authMiddleware has called GetAccount, then UpdateAccount with the call count plus 1, then
the handler, which dials on the updated store; the response is 503, the connection is not
taken over, and the stored call count is the old one plus 1: nothing rolls the increment
back. -/
theorem quota_consumed_before_dial (lib : Lib) (secret : GoString) (net : Net) (r : Request)
    (db : DB) (w : ResponseWriter) (attribution id err : GoString) (account : Account)
    (hauth : Authenticates lib secret r attribution id) (hkey : id ≠ [])
    (hfind : db.first id = some account)
    (hty : account.WellTyped) (hlt : account.callCount < account.requestLimit)
    (hdial : net.dial r.host = some err) :
    authMiddleware lib (handleTunneling net) gormAccountService secret r db w =
        done (db.save (account.withCallCount (account.callCount + 1))) (httpError w err 503)
          [.getAccount id, .updateAccount (account.withCallCount (account.callCount + 1)),
            .handler (r.withAttribution attribution), .dial r.host] ∧
      (w.status = none →
        (authMiddleware lib (handleTunneling net) gormAccountService secret r db w).w.status =
          some 503) ∧
      (authMiddleware lib (handleTunneling net) gormAccountService secret r db w).hijacked = false ∧
      db.callCount id = some account.callCount ∧
      (authMiddleware lib (handleTunneling net) gormAccountService secret r db w).store.callCount id =
        some (account.callCount + 1) := by
  have hres : authMiddleware lib (handleTunneling net) gormAccountService secret r db w =
      done (db.save (account.withCallCount (account.callCount + 1))) (httpError w err 503)
        [.getAccount id, .updateAccount (account.withCallCount (account.callCount + 1)),
          .handler (r.withAttribution attribution), .dial r.host] := by
    rw [step_grant lib secret net r db w attribution id account hauth hfind hty hlt]
    simp [handleTunneling, Request.withAttribution, hdial, Result.after, done]
  have hid := first_id db id account hfind
  have hsave : (db.save (account.withCallCount (account.callCount + 1))).first id =
      some { account.withCallCount (account.callCount + 1) with updatedAt := db.now } := by
    have := first_save_self db (account.withCallCount (account.callCount + 1)) account
      (by show account.id ≠ []; rw [hid]; exact hkey)
      (by show db.first account.id = some account; rw [hid]; exact hfind)
    rw [← hid]
    exact this
  rw [hres]
  refine ⟨rfl, fun hw => status_httpError w err 503 hw, rfl, ?_, ?_⟩
  · simp [DB.callCount, hfind]
  · simp only [done, DB.callCount, hsave]
    rfl

/-- Witness of C10: the first request on the account "svc" while the destination is down. -/
theorem quota_consumed_before_dial_witness :
    (authMiddleware toyLib (handleTunneling netDown) gormAccountService (str "k") svcRequest svcStore
        ResponseWriter.fresh).w.status = some 503 ∧
      (authMiddleware toyLib (handleTunneling netDown) gormAccountService (str "k") svcRequest svcStore
        ResponseWriter.fresh).store.callCount (str "X") = some (svcAccount.callCount + 1) :=
  have h := quota_consumed_before_dial toyLib (str "k") netDown svcRequest svcStore ResponseWriter.fresh
    (str "svc") (str "X") (str "dial tcp: connection refused") svcAccount svcRequest_authenticates
    (by decide) (by decide) svcAccount_wellTyped (by decide) rfl
  ⟨h.2.1 rfl, h.2.2.2.2⟩

/-- C4 (sequential quota exhaustion). Requests that all authenticate to the same account are
served one after another on the store, the account starting with call count c and limit l,
0 <= c <= l. Then there is one result per request; the request at position i (from 0) is
granted when i < l - c (GetAccount, UpdateAccount with call count c + i + 1, handler; the stored
call count is then c + i + 1) and is answered 429 after the sole call of GetAccount when
i >= l - c (the stored call count is then l); after all n requests the stored call count is
min (c + n) l. -/
theorem sequential_quota (lib : Lib) (secret : GoString) (reqs : List (Request × Net)) (db : DB)
    (id : GoString) (account : Account)
    (hauth : ∀ p ∈ reqs, ∃ attribution, Authenticates lib secret p.1 attribution id)
    (hfind : db.first id = some account)
    (h0 : 0 ≤ account.callCount) (hle : account.callCount ≤ account.requestLimit)
    (hint : IsInt account.requestLimit) :
    (serveAll lib secret db reqs).1.length = reqs.length ∧
    (serveAll lib secret db reqs).2.callCount id =
      some (min (account.callCount + reqs.length) account.requestLimit) ∧
    ∀ (i : Nat) (res : Result DB), (serveAll lib secret db reqs).1[i]? = some res →
      ((i : Int) < account.requestLimit - account.callCount →
        ∃ a r1, res.calls.take 3 = [.getAccount id, .updateAccount a, .handler r1] ∧
          a.callCount = account.callCount + i + 1 ∧
          res.store.callCount id = some (account.callCount + i + 1)) ∧
      (account.requestLimit - account.callCount ≤ (i : Int) →
        res.w.status = some 429 ∧ res.calls = [.getAccount id] ∧
          res.store.callCount id = some account.requestLimit) := by
  induction reqs generalizing db account with
  | nil =>
    refine ⟨rfl, ?_, ?_⟩
    · simp only [serveAll, DB.callCount, hfind, Option.map_some', List.length_nil, Nat.cast_zero,
        add_zero]
      rw [min_eq_left hle]
    · intro i res hres
      simp [serveAll] at hres
  | cons p rest ih =>
    obtain ⟨r, net⟩ := p
    obtain ⟨attribution, ha⟩ := hauth (r, net) (by simp)
    have hrest : ∀ q ∈ rest, ∃ attribution, Authenticates lib secret q.1 attribution id :=
      fun q hq => hauth q (by simp [hq])
    have hid := first_id db id account hfind
    by_cases hlt : account.callCount < account.requestLimit
    · have hty : account.WellTyped := by
        unfold Account.WellTyped IsInt minInt maxInt at *
        omega
      have hstep := faithful_step_grant lib secret net r db ResponseWriter.fresh attribution id account ha
        hfind hty hlt
      have hstore : (authMiddleware lib (handleTunneling net) faithfulAccountService secret r db
          ResponseWriter.fresh).store = db.persist (account.withCallCount (account.callCount + 1)) := by
        rw [hstep]
        exact handleTunneling_store net _ _ _
      have hsave : (db.persist (account.withCallCount (account.callCount + 1))).first id =
          some { account.withCallCount (account.callCount + 1) with updatedAt := db.now } := by
        have := first_persist_self db (account.withCallCount (account.callCount + 1)) account
          (by show db.first account.id = some account; rw [hid]; exact hfind)
        rw [← hid]
        exact this
      have hih := ih (db.persist (account.withCallCount (account.callCount + 1)))
        { account.withCallCount (account.callCount + 1) with updatedAt := db.now } hrest hsave
        (by show 0 ≤ account.callCount + 1; omega)
        (by show account.callCount + 1 ≤ account.requestLimit; omega) hint
      obtain ⟨ih1, ih2, ih3⟩ := hih
      simp only [serveAll, hstore]
      refine ⟨by simp [ih1], ?_, ?_⟩
      · rw [ih2]
        show some (min (account.callCount + 1 + (rest.length : Int)) account.requestLimit) = _
        simp only [List.length_cons, Nat.cast_add, Nat.cast_one]
        congr 2
        omega
      · intro i res hres
        cases i with
        | zero =>
          simp only [List.getElem?_cons_zero, Option.some.injEq] at hres
          subst hres
          refine ⟨fun _ => ?_, fun hcontra => ?_⟩
          · refine ⟨account.withCallCount (account.callCount + 1), r.withAttribution attribution,
              ?_, ?_, ?_⟩
            · rw [hstep]
              simp [Result.after]
            · simp [Account.withCallCount]
            · rw [hstore]
              simp only [DB.callCount, hsave, Option.map_some', Nat.cast_zero, add_zero]
              rfl
          · exfalso
            simp only [Nat.cast_zero] at hcontra
            omega
        | succ j =>
          simp only [List.getElem?_cons_succ] at hres
          obtain ⟨g1, g2⟩ := ih3 j res hres
          refine ⟨fun hi => ?_, fun hi => ?_⟩
          · obtain ⟨a, r1, c1, c2, c3⟩ := g1 (by
              show (j : Int) < account.requestLimit - (account.callCount + 1)
              push_cast at hi
              omega)
            refine ⟨a, r1, c1, ?_, ?_⟩
            · rw [c2]
              show account.callCount + 1 + (j : Int) + 1 = _
              push_cast
              omega
            · rw [c3]
              show some (account.callCount + 1 + (j : Int) + 1) = _
              push_cast
              congr 1
              omega
          · exact g2 (by
              show account.requestLimit - (account.callCount + 1) ≤ (j : Int)
              push_cast at hi
              omega)
    · have hge : account.callCount ≥ account.requestLimit := by omega
      have heq : account.callCount = account.requestLimit := by omega
      have hstep := faithful_step_exhausted lib secret net r db ResponseWriter.fresh attribution id account ha
        hfind hge
      obtain ⟨ih1, ih2, ih3⟩ := ih db account hrest hfind h0 hle hint
      simp only [serveAll, hstep, done]
      refine ⟨by simp [ih1], ?_, ?_⟩
      · rw [ih2]
        simp only [List.length_cons, Nat.cast_add, Nat.cast_one]
        congr 1
        omega
      · intro i res hres
        cases i with
        | zero =>
          simp only [List.getElem?_cons_zero, Option.some.injEq] at hres
          subst hres
          refine ⟨fun hcontra => ?_, fun _ => ⟨status_writeJSONResponse _ 429 _ rfl, rfl, ?_⟩⟩
          · exfalso
            simp only [Nat.cast_zero] at hcontra
            omega
          · simp only [DB.callCount, hfind, Option.map_some', heq]
        | succ j =>
          simp only [List.getElem?_cons_succ] at hres
          obtain ⟨g1, g2⟩ := ih3 j res hres
          refine ⟨fun hi => ?_, fun _ => g2 (by omega)⟩
          exfalso
          push_cast at hi
          omega

/-- Witness of C4: limit 2, no call counted, three requests: after them the stored call count
is 2. -/
theorem sequential_quota_witness :
    (serveAll toyLib (str "k") svcStore (List.replicate 3 (svcRequest, netUp))).2.callCount (str "X") =
      some (min (svcAccount.callCount + (List.replicate 3 (svcRequest, netUp)).length)
        svcAccount.requestLimit) :=
  (sequential_quota toyLib (str "k") (List.replicate 3 (svcRequest, netUp)) svcStore (str "X")
    svcAccount
    (fun p hp => ⟨str "svc", by rw [List.eq_of_mem_replicate hp]; exact svcRequest_authenticates⟩)
    (by decide) (by decide) (by decide) svcAccount_wellTyped.1).2.1

/-- The end-to-end scenario of the specification on the small instance: account "svc" with
limit 2; two requests are answered 200, the third 429, and the stored call count ends at 2. -/
theorem end_to_end_scenario :
    (serveAll toyLib (str "k") svcStore (List.replicate 3 (svcRequest, netUp))).1.map
        (fun res => res.w.status) = [some 200, some 200, some 429] ∧
      (serveAll toyLib (str "k") svcStore (List.replicate 3 (svcRequest, netUp))).2.callCount (str "X") =
        some 2 := by
  decide

end HyperProxy
